import Mathlib

/-!
Verification development for the invoice memory layer (Recall / Apply /
Decide / Learn pipeline with vendor, correction and resolution memories,
and a processed-invoice duplicate guard).

Shallow embedding conventions:
* JavaScript numbers (money amounts, confidences) are modelled as `Rat`;
  counters as `Nat`.  Floating-point rounding is abstracted away.
* Invoice dates are stored as strings in the source and parsed by
  `parseDate` into calendar dates; the embedding models a parsed date as
  an `Option Int` day number (`none` = unparsable string), and a
  difference of day numbers stands for the source's
  `(t2 - t1) / 86400000` day distance.
* The md5 content fingerprint `md5(vendor + "|" + invoiceNumber + "|" +
  grossTotal)` is modelled by the tuple of its three components
  (`InvoiceHash`); md5 collisions are abstracted away, so equal hashes
  correspond exactly to equal (vendor, number, grossTotal) triples.
* `uuidv4()` identifiers are modelled by a fresh-`Nat` counter threaded
  through the store; identifiers that the logic never reads back
  (resolution records, ledger entries, audit rows) are omitted.
* Timestamps (`createdAt`, `updatedAt`, `processedAt`, `lastUsed`) are
  informational except for recency ordering of the processed ledger,
  which is modelled by keeping the ledger list most-recent-first.
* Free-text strings (`reasoning` fields of proposed corrections, audit
  sentences) that are only displayed, never branched on, are omitted
  from result records; audit detail lists keep one entry per source
  `details.push`, with the source's interpolated sentences.
-/

namespace InvoiceMemory

/-- Dynamically typed JavaScript values that flow through correction
records (`unknown` in the TypeScript source): strings, numbers, `null`,
and the `{ from, to }` object built in the tax-correction branch. -/
inductive JsVal where
  | s (v : String)
  | n (v : Rat)
  | null
  | pair (a b : JsVal)
deriving DecidableEq, Repr

/-- Reads a `JsVal` as a string, mirroring the source's `to as string`
type assertion (call sites only ever pass strings). -/
def JsVal.asString : JsVal → String
  | .s v => v
  | _ => ""

/-- Projection of a `JsVal` to an optional string: `some` exactly on
string values. -/
def valToOptStr : JsVal → Option String
  | .s v => some v
  | _ => none

/-- Substring occurrence over character lists: the needle occurs as a
prefix of some suffix of the haystack (structural recursion, so
concrete instances compute). -/
def listContains : List Char → List Char → Bool
  | [], pat => pat.isEmpty
  | c :: cs, pat => pat.isPrefixOf (c :: cs) || listContains cs pat

/-- JavaScript `String.prototype.includes`: substring occurrence, with
the empty needle always contained. -/
def strContains (s pat : String) : Bool :=
  listContains s.data pat.data

/-- ASCII lower-casing, modelling `toLowerCase()` on the ASCII strings
the pipeline compares. -/
def toLowerStr (s : String) : String :=
  ⟨s.data.map Char.toLower⟩

/-- JavaScript truthiness of an optional string: `undefined`/`null` and
the empty string are falsy. -/
def jsTruthyOpt : Option String → Bool
  | some s => s ≠ ""
  | none => false

/-- JavaScript `x || 'EUR'` on an optional string. -/
def currencyOrEUR : Option String → String
  | some s => if s = "" then "EUR" else s
  | none => "EUR"

/-- JavaScript `x || undefined` on an optional string: collapses the
empty string to `none`. -/
def presentStr : Option String → Option String
  | some s => if s = "" then none else some s
  | none => none

/-- Parses one or more digits directly followed by `]` (the
`(\d+)\]` tail of the source regex); the accumulator is `some` once at
least one digit has been read. -/
def digitsThenBracket : List Char → Option Nat → Option Nat
  | [], _ => none
  | c :: cs, acc =>
    if c.isDigit then digitsThenBracket cs (some (acc.getD 0 * 10 + (c.toNat - 48)))
    else if c = ']' then acc
    else none

/-- First line-item index matched by the source regex
`/lineItems\[(\d+)\]/`: scans for an occurrence of `"lineItems["`
directly followed by one or more digits and `]`. -/
def lineItemIndexAux : List Char → Option Nat
  | [] => none
  | c :: cs =>
    if ("lineItems[".data).isPrefixOf (c :: cs) then
      match digitsThenBracket ((c :: cs).drop ("lineItems[".data).length) none with
      | some n => some n
      | none => lineItemIndexAux cs
    else lineItemIndexAux cs

/-- Extracts the line-item index referenced by a correction field name
such as `"lineItems[3].sku"` (the source's regex match + `parseInt`). -/
def lineItemIndex (field : String) : Option Nat :=
  lineItemIndexAux field.data

/-! ## Data model (src/types/invoice.ts, src/types/memory.ts, src/types/output.ts) -/

/-- A raw invoice line item (`LineItem`). `amount` and `qtyDelivered`
are never read by the embedded pipeline and are omitted. -/
structure LineItem where
  sku : Option String
  description : Option String
  qty : Rat
  unitPrice : Rat
deriving DecidableEq, Repr

/-- The fixed extracted field schema of an incoming document
(`InvoiceFields`). -/
structure InvoiceFields where
  invoiceNumber : String
  invoiceDate : Option Int
  serviceDate : Option String
  currency : Option String
  poNumber : Option String
  netTotal : Rat
  taxRate : Rat
  taxTotal : Rat
  grossTotal : Rat
  lineItems : List LineItem
  discountTerms : Option String
deriving DecidableEq, Repr

/-- An incoming document (`Invoice`). -/
structure Invoice where
  invoiceId : String
  vendor : String
  fields : InvoiceFields
  confidence : Rat
  rawText : String
deriving DecidableEq, Repr

/-- A purchase order (`PurchaseOrder`); `date` is never read by the
matching logic and is omitted. -/
structure PurchaseOrder where
  poNumber : String
  vendor : String
  lineItems : List LineItem
deriving DecidableEq, Repr

/-- A canonical line item of the normalized invoice
(`NormalizedLineItem`). -/
structure NormalizedLineItem where
  sku : String
  description : String
  qty : Rat
  unitPrice : Rat
  amount : Rat
deriving DecidableEq, Repr

/-- The normalized document produced by Apply (`NormalizedInvoice`). -/
structure NormalizedInvoice where
  invoiceId : String
  vendor : String
  invoiceNumber : String
  invoiceDate : Option Int
  serviceDate : Option String
  currency : String
  poNumber : Option String
  netTotal : Rat
  taxRate : Rat
  taxTotal : Rat
  grossTotal : Rat
  lineItems : List NormalizedLineItem
  discountTerms : Option String
deriving DecidableEq, Repr

/-- A proposed field correction (`ProposedCorrection`); the free-text
`reasoning` sentence is presentation-only and omitted. -/
structure ProposedCorrection where
  field : String
  originalValue : JsVal
  proposedValue : JsVal
  confidence : Rat
  autoApplied : Bool
deriving DecidableEq, Repr

/-- A learned source-label → target-field mapping (`FieldMapping`). -/
structure FieldMapping where
  sourceLabel : String
  targetField : String
  confidence : Rat
  successCount : Nat
  failureCount : Nat
deriving DecidableEq, Repr

/-- Learned VAT behaviour of a vendor (`TaxBehavior`). -/
structure TaxBehavior where
  isInclusive : Bool
  defaultRate : Rat
  confidence : Rat
deriving DecidableEq, Repr

/-- A learned description → SKU mapping (`SkuMapping`). -/
structure SkuMapping where
  description : String
  sku : String
  confidence : Rat
  usageCount : Nat
deriving DecidableEq, Repr

/-- Per-vendor aggregate memory (`VendorMemory`). -/
structure VendorMemory where
  id : Nat
  vendorName : String
  fieldMappings : List FieldMapping
  taxBehavior : Option TaxBehavior
  defaultCurrency : Option String
  skuMappings : List SkuMapping
  paymentTerms : Option String
  confidence : Rat
  usageCount : Nat
deriving DecidableEq, Repr

/-- The kinds of correction patterns (`CorrectionType`). -/
inductive CorrectionType where
  | extract_from_rawtext
  | recalculate_tax
  | match_po
  | map_sku
  | set_currency
  | set_payment_terms
deriving DecidableEq, Repr

/-- A recognised correction pattern (`CorrectionMemory`); a missing
`correctionValue` is stored as `JsVal.null`. -/
structure CorrectionMemory where
  id : Nat
  vendorName : String
  fieldName : String
  pattern : String
  correctionType : CorrectionType
  correctionValue : JsVal
  confidence : Rat
  successCount : Nat
  failureCount : Nat
deriving DecidableEq, Repr

/-- A human approval/rejection outcome. -/
inductive Resolution where
  | approved
  | rejected
deriving DecidableEq, Repr

/-- An immutable record of one human decision (`ResolutionMemory`);
its uuid is never read back and is omitted. -/
structure ResolutionMemory where
  invoiceId : String
  vendorName : String
  discrepancyType : String
  originalValue : JsVal
  correctedValue : JsVal
  resolution : Resolution
  humanFeedback : Option String
deriving DecidableEq, Repr

/-- The content fingerprint of a processed invoice: the components of
`md5(vendor + "|" + invoiceNumber + "|" + grossTotal)`. -/
structure InvoiceHash where
  vendor : String
  invoiceNumber : String
  grossTotal : Rat
deriving DecidableEq, Repr

/-- A processed-invoice ledger entry (`ProcessedInvoice`); its uuid is
never read back and is omitted, and recency ordering is carried by the
position in the ledger list (most recent first). -/
structure ProcessedInvoice where
  invoiceNumber : String
  vendorName : String
  invoiceDate : Option Int
  grossTotal : Rat
  hash : InvoiceHash
deriving DecidableEq, Repr

/-- The transient working set assembled by Recall (`RecalledMemories`). -/
structure RecalledMemories where
  vendorMemory : Option VendorMemory
  correctionMemories : List CorrectionMemory
  resolutionMemories : List ResolutionMemory
  potentialDuplicate : Option ProcessedInvoice
deriving DecidableEq, Repr

/-- A single human field correction (`FieldCorrection`); `from`/`to`
are renamed `fromVal`/`toVal` (`from` is a Lean keyword). -/
structure FieldCorrection where
  field : String
  fromVal : JsVal
  toVal : JsVal
  reason : String
deriving DecidableEq, Repr

/-- A finalized human correction batch (`HumanCorrection`). -/
structure HumanCorrection where
  invoiceId : String
  vendor : String
  corrections : List FieldCorrection
  finalDecision : Resolution
deriving DecidableEq, Repr

/-- The persistent knowledge store: the four logical tables of the
sql.js database plus the fresh-identifier counter modelling `uuidv4`. -/
structure Store where
  nextId : Nat
  vendorMemories : List VendorMemory
  correctionMemories : List CorrectionMemory
  resolutionMemories : List ResolutionMemory
  ledger : List ProcessedInvoice
deriving DecidableEq, Repr

/-! ## Duplicate Guard (src/utils/duplicateDetection.ts) -/

/-- `generateInvoiceHash`: fingerprint of vendor, invoice number and
gross total. -/
def generateInvoiceHash (invoice : Invoice) : InvoiceHash :=
  { vendor := invoice.vendor
    invoiceNumber := invoice.fields.invoiceNumber
    grossTotal := invoice.fields.grossTotal }

/-- The ledger entry written by `recordProcessedInvoice`. -/
def mkProcessedEntry (invoice : Invoice) : ProcessedInvoice :=
  { invoiceNumber := invoice.fields.invoiceNumber
    vendorName := invoice.vendor
    invoiceDate := invoice.fields.invoiceDate
    grossTotal := invoice.fields.grossTotal
    hash := generateInvoiceHash invoice }

/-- `recordProcessedInvoice`: inserts a ledger row; the new row is the
most recent one. -/
def recordProcessedInvoiceLedger (invoice : Invoice) (ledger : List ProcessedInvoice) :
    List ProcessedInvoice :=
  mkProcessedEntry invoice :: ledger

/-- `checkDuplicate`: looks up the most recent ledger row with the same
vendor and invoice number; flags it when the invoice dates are within 7
days and the gross totals within 1 % of the stored total, or, failing
that, when the fingerprints coincide exactly. -/
def checkDuplicate (ledger : List ProcessedInvoice) (invoice : Invoice) :
    Option ProcessedInvoice :=
  match (ledger.filter fun e =>
      e.vendorName = invoice.vendor ∧ e.invoiceNumber = invoice.fields.invoiceNumber).head? with
  | none => none
  | some existingInvoice =>
    let dateOk : Bool :=
      match existingInvoice.invoiceDate, invoice.fields.invoiceDate with
      | some d1, some d2 => (d2 - d1).natAbs ≤ 7
      | _, _ => false
    let amountDiff := |existingInvoice.grossTotal - invoice.fields.grossTotal|
    let tolerance := existingInvoice.grossTotal * (1 / 100)
    if dateOk ∧ amountDiff ≤ tolerance then some existingInvoice
    else if existingInvoice.hash = generateInvoiceHash invoice then some existingInvoice
    else none

/-! ## Decide service (src/services/decide.ts) -/

namespace Decide

/-- Upper confidence threshold of the Decide service. -/
def AUTO_ACCEPT_THRESHOLD : Rat := 85 / 100

/-- Auto-correct threshold of the Decide service. -/
def AUTO_CORRECT_THRESHOLD : Rat := 60 / 100

/-- Escalation threshold of the Decide service. -/
def ESCALATE_THRESHOLD : Rat := 40 / 100

end Decide

/-- Result of the Decide stage (`DecisionResult`); the `reasoning` and
audit sentences are presentation-only and omitted. -/
structure DecisionResult where
  requiresHumanReview : Bool
  confidenceScore : Rat
deriving DecidableEq, Repr

/-- `hasConflictingMemories`: three or more resolutions with a rejection
rate above 40 %, or any correction memory failing more often than it
succeeds. -/
def hasConflictingMemories (memories : RecalledMemories) : Bool :=
  let res := memories.resolutionMemories
  let approved := (res.filter fun r => r.resolution = Resolution.approved).length
  let rejected := (res.filter fun r => r.resolution = Resolution.rejected).length
  (res.length ≥ 3 ∧ ((rejected : Rat) / ((approved : Rat) + (rejected : Rat)) > 2 / 5)) ∨
    (memories.correctionMemories.filter fun c => c.failureCount > c.successCount) ≠ []

/-- `checkMissingFields`: flags a missing currency with no pending
currency correction.  The source also computes `itemsWithoutSKU` and
`skuCorrections` but its SKU branch pushes nothing (dead code). -/
def checkMissingFields (invoice : NormalizedInvoice) (corrections : List ProposedCorrection) :
    List String :=
  if invoice.currency = "" ∧ (corrections.find? fun c => c.field = "currency").isNone then
    ["currency"]
  else []

/-- `calculateOverallConfidence` of the Decide service: base confidence,
vendor-memory boost capped at 1, averaging with auto-applied correction
confidences, pending/duplicate/new-vendor penalties, clamped to
[0.1, 1]. -/
def calculateOverallConfidence (originalConfidence : Rat) (memories : RecalledMemories)
    (corrections : List ProposedCorrection) : Rat :=
  let score := originalConfidence
  let score :=
    match memories.vendorMemory with
    | some vm => min 1 (score + vm.confidence * (1 / 10))
    | none => score
  let autoAppliedCorrections := corrections.filter fun c => c.autoApplied
  let score :=
    if autoAppliedCorrections.length > 0 then
      ((score + (autoAppliedCorrections.map fun c => c.confidence).sum /
        (autoAppliedCorrections.length : Rat)) / 2)
    else score
  let pendingCorrections := corrections.filter fun c => !c.autoApplied
  let score := if pendingCorrections.length > 0 then score * (9 / 10) else score
  let score := if memories.potentialDuplicate.isSome then score * (1 / 2) else score
  let score :=
    match memories.vendorMemory with
    | none => score * (4 / 5)
    | some vm => if vm.usageCount < 2 then score * (4 / 5) else score
  max (1 / 10) (min 1 score)

/-- `makeDecision`: the full escalation-rule disjunction followed by the
confidence-threshold fallback. -/
def makeDecision (normalizedInvoice : NormalizedInvoice)
    (proposedCorrections : List ProposedCorrection) (memories : RecalledMemories)
    (originalConfidence : Rat) : DecisionResult :=
  let dup := memories.potentialDuplicate.isSome
  let isNewVendor : Bool :=
    match memories.vendorMemory with
    | none => true
    | some vm => vm.usageCount < 2
  let lowConfidenceCorrections :=
    proposedCorrections.filter fun c => c.confidence < Decide.ESCALATE_THRESHOLD
  let pendingCorrections :=
    proposedCorrections.filter fun c => !c.autoApplied ∧ c.confidence ≥ Decide.ESCALATE_THRESHOLD
  let missingFields := checkMissingFields normalizedInvoice proposedCorrections
  let requiresHumanReview :=
    dup || isNewVendor || !lowConfidenceCorrections.isEmpty || !pendingCorrections.isEmpty ||
      hasConflictingMemories memories || !missingFields.isEmpty
  let confidenceScore := calculateOverallConfidence originalConfidence memories proposedCorrections
  let requiresHumanReview :=
    if !requiresHumanReview ∧ confidenceScore < Decide.AUTO_CORRECT_THRESHOLD then true
    else requiresHumanReview
  { requiresHumanReview := requiresHumanReview
    confidenceScore := confidenceScore }

/-! ## Recall service (src/services/recall.ts) -/

/-- `applyConfidenceDecay`: advisory 1 %-per-day decay, floored at 0.1.
The source measures `daysSinceLastUse` from timestamps; the embedding
takes the elapsed days directly. -/
def applyConfidenceDecay (confidence : Rat) (daysSinceLastUse : Nat) : Rat :=
  max (1 / 10) (confidence * (99 / 100) ^ daysSinceLastUse)

/-! ## Correction memory module (src/memory/correctionMemory.ts) -/

namespace CorrectionStore

/-- `calculateCorrectionConfidence`: success-rate confidence with
failures weighted twice, at least three observations for full weight,
clamped to [0.1, 0.95].  (The source also computes an unused
`successRate` local.) -/
def calculateCorrectionConfidence (successCount failureCount : Nat) : Rat :=
  let total := successCount + failureCount
  if total = 0 then 1 / 2
  else
    let observationFactor := min 1 ((total : Rat) / 3)
    let adjustedRate := (successCount : Rat) / ((successCount : Rat) + (failureCount : Rat) * 2)
    min (95 / 100) (max (1 / 10) (3 / 10 + adjustedRate * (65 / 100) * observationFactor))

/-- The row update performed by `reinforceCorrection`. -/
def reinforceRec (r : CorrectionMemory) : CorrectionMemory :=
  { r with
    successCount := r.successCount + 1
    confidence := calculateCorrectionConfidence (r.successCount + 1) r.failureCount }

/-- The row update performed by `weakenCorrection`. -/
def weakenRec (r : CorrectionMemory) : CorrectionMemory :=
  { r with
    failureCount := r.failureCount + 1
    confidence := calculateCorrectionConfidence r.successCount (r.failureCount + 1) }

/-- Insertion step of the `ORDER BY confidence DESC` read. -/
def insertByConfDesc (c : CorrectionMemory) : List CorrectionMemory → List CorrectionMemory
  | [] => [c]
  | a :: as => if a.confidence < c.confidence then c :: a :: as else a :: insertByConfDesc c as

/-- Sorting by descending confidence (the SQL `ORDER BY confidence
DESC`; relative order of ties is unspecified in SQL and fixed here as
stable). -/
def sortByConfDesc : List CorrectionMemory → List CorrectionMemory
  | [] => []
  | a :: as => insertByConfDesc a (sortByConfDesc as)

/-- `getCorrectionMemories`: all rows of a vendor, most confident
first. -/
def getCorrectionMemories (vendorName : String) (store : Store) : List CorrectionMemory :=
  sortByConfDesc (store.correctionMemories.filter fun c => c.vendorName = vendorName)

/-- `findMatchingCorrection`: the most confident row of the vendor with
the given field name, optionally filtered by two-way case-insensitive
pattern containment. -/
def findMatchingCorrection (vendorName fieldName : String) (pat : Option String)
    (store : Store) : Option CorrectionMemory :=
  let corrections := getCorrectionMemories vendorName store
  let matched := corrections.filter fun c =>
    let patOk : Bool :=
      match pat with
      | some p =>
        if p ≠ "" ∧ c.pattern ≠ "" then
          strContains (toLowerStr c.pattern) (toLowerStr p) ||
            strContains (toLowerStr p) (toLowerStr c.pattern)
        else true
      | none => true
    decide (c.fieldName = fieldName) && patOk
  matched.head?

/-- `reinforceCorrection`: bumps the success count of the row with the
given id and recomputes its confidence; a no-op when the id is absent. -/
def reinforceCorrection (correctionId : Nat) (store : Store) : Store :=
  { store with
    correctionMemories :=
      store.correctionMemories.map fun r => if r.id = correctionId then reinforceRec r else r }

/-- `weakenCorrection`: bumps the failure count of the row with the
given id and recomputes its confidence; a no-op when the id is absent. -/
def weakenCorrection (correctionId : Nat) (store : Store) : Store :=
  { store with
    correctionMemories :=
      store.correctionMemories.map fun r => if r.id = correctionId then weakenRec r else r }

/-- The row inserted for a brand-new correction pattern: initial
confidence 0.6, one success, no failures. -/
def createdCorrectionRec (id : Nat) (vendorName fieldName pat : String)
    (correctionType : CorrectionType) (correctionValue : JsVal) : CorrectionMemory :=
  { id := id
    vendorName := vendorName
    fieldName := fieldName
    pattern := pat
    correctionType := correctionType
    correctionValue := correctionValue
    confidence := 6 / 10
    successCount := 1
    failureCount := 0 }

/-- `recordCorrection`: reinforces an existing similar pattern (and
returns it with a bumped success count), or inserts a fresh row. -/
def recordCorrection (vendorName fieldName pat : String) (correctionType : CorrectionType)
    (correctionValue : JsVal) (store : Store) : CorrectionMemory × Store :=
  match findMatchingCorrection vendorName fieldName (some pat) store with
  | some existing =>
    ({ existing with successCount := existing.successCount + 1 },
      reinforceCorrection existing.id store)
  | none =>
    let newRec := createdCorrectionRec store.nextId vendorName fieldName pat correctionType
      correctionValue
    (newRec,
      { store with
        nextId := store.nextId + 1
        correctionMemories := store.correctionMemories ++ [newRec] })

end CorrectionStore

/-! ## Vendor memory module (src/memory/vendorMemory.ts) -/

/-- Replaces the first element satisfying `p` (JavaScript mutates the
object returned by `Array.prototype.find`). -/
def updateFirst {α : Type} (p : α → Bool) (f : α → α) : List α → List α
  | [] => []
  | a :: as => if p a then f a :: as else a :: updateFirst p f as

namespace VendorStore

/-- `calculateConfidence` for field mappings: success rate damped by an
observation factor, capped at 0.95 (no lower floor in this variant). -/
def calculateConfidence (successCount failureCount : Nat) : Rat :=
  let total := successCount + failureCount
  if total = 0 then 1 / 2
  else
    let successRate := (successCount : Rat) / (total : Rat)
    let observationFactor := min 1 ((total : Rat) / 3)
    min (95 / 100) (3 / 10 + successRate * (65 / 100) * observationFactor)

/-- `calculateOverallConfidence` of the vendor memory module: aggregates
the sub-memory confidences (field mappings, tax behaviour, SKU
mappings), weighted by the usage count. -/
def calculateOverallConfidence (memory : VendorMemory) : Rat :=
  let confidences :=
    (memory.fieldMappings.map fun m => m.confidence) ++
      (match memory.taxBehavior with
       | some tb => [tb.confidence]
       | none => []) ++
      (memory.skuMappings.map fun m => m.confidence)
  if confidences.length = 0 then 1 / 2
  else
    let avg := confidences.sum / (confidences.length : Rat)
    let usageFactor := min 1 ((memory.usageCount : Rat) / 5)
    3 / 10 + avg * (7 / 10) * usageFactor

/-- `getVendorMemory`: the first stored row with the given vendor
name. -/
def getVendorMemory (vendorName : String) (store : Store) : Option VendorMemory :=
  store.vendorMemories.find? fun m => decide (m.vendorName = vendorName)

/-- The row inserted by `createVendorMemory`: empty sub-memories,
confidence 0.5, usage count 0. -/
def createdVendorRec (id : Nat) (vendorName : String) : VendorMemory :=
  { id := id
    vendorName := vendorName
    fieldMappings := []
    taxBehavior := none
    defaultCurrency := none
    skuMappings := []
    paymentTerms := none
    confidence := 1 / 2
    usageCount := 0 }

/-- `createVendorMemory`: inserts a fresh default row and returns it. -/
def createVendorMemory (vendorName : String) (store : Store) : VendorMemory × Store :=
  let memory := createdVendorRec store.nextId vendorName
  (memory,
    { store with
      nextId := store.nextId + 1
      vendorMemories := store.vendorMemories ++ [memory] })

/-- The get-or-create preamble shared by every vendor update function. -/
def readOrCreate (vendorName : String) (store : Store) : VendorMemory × Store :=
  match getVendorMemory vendorName store with
  | some m => (m, store)
  | none => createVendorMemory vendorName store

/-- The SQL `UPDATE vendor_memories ... WHERE vendor_name = ?`: every
row with the given vendor name is overwritten with the updated record. -/
def putVendorMemory (vendorName : String) (memory : VendorMemory) (store : Store) : Store :=
  { store with
    vendorMemories :=
      store.vendorMemories.map fun r => if r.vendorName = vendorName then memory else r }

/-- Predicate of the field-mapping lookup in `updateFieldMapping`. -/
def fieldMappingMatches (sourceLabel targetField : String) (m : FieldMapping) : Bool :=
  decide (toLowerStr m.sourceLabel = toLowerStr sourceLabel) && decide (m.targetField = targetField)

/-- The success/failure bump of an existing field mapping. -/
def bumpFieldMapping (success : Bool) (m : FieldMapping) : FieldMapping :=
  if success then
    { m with
      successCount := m.successCount + 1
      confidence := calculateConfidence (m.successCount + 1) m.failureCount }
  else
    { m with
      failureCount := m.failureCount + 1
      confidence := calculateConfidence m.successCount (m.failureCount + 1) }

/-- `updateFieldMapping`: reinforces or creates a source-label →
target-field mapping, bumps the usage count and recomputes the
aggregate confidence. -/
def updateFieldMapping (vendorName sourceLabel targetField : String) (success : Bool)
    (store : Store) : Store :=
  let (memory, store) := readOrCreate vendorName store
  let memory :=
    if (memory.fieldMappings.find? (fieldMappingMatches sourceLabel targetField)).isSome then
      { memory with
        fieldMappings :=
          updateFirst (fieldMappingMatches sourceLabel targetField) (bumpFieldMapping success)
            memory.fieldMappings }
    else
      { memory with
        fieldMappings :=
          memory.fieldMappings ++
            [{ sourceLabel := sourceLabel
               targetField := targetField
               confidence := if success then 6 / 10 else 3 / 10
               successCount := if success then 1 else 0
               failureCount := if success then 0 else 1 }] }
  let memory := { memory with usageCount := memory.usageCount + 1 }
  let memory := { memory with confidence := calculateOverallConfidence memory }
  putVendorMemory vendorName memory store

/-- `updateTaxBehavior`: adjusts (or creates) the learned VAT behaviour,
bumps the usage count and recomputes the aggregate confidence. -/
def updateTaxBehavior (vendorName : String) (isInclusive : Bool) (defaultRate : Rat)
    (success : Bool) (store : Store) : Store :=
  let (memory, store) := readOrCreate vendorName store
  let memory :=
    match memory.taxBehavior with
    | some tb =>
      let newConfidence :=
        if success then min 1 (tb.confidence + 1 / 10) else max (1 / 10) (tb.confidence - 2 / 10)
      { memory with taxBehavior := some { tb with confidence := newConfidence } }
    | none =>
      { memory with
        taxBehavior :=
          some { isInclusive := isInclusive
                 defaultRate := defaultRate
                 confidence := if success then 6 / 10 else 3 / 10 } }
  let memory := { memory with usageCount := memory.usageCount + 1 }
  let memory := { memory with confidence := calculateOverallConfidence memory }
  putVendorMemory vendorName memory store

/-- `updateDefaultCurrency`: sets the default currency and bumps the
usage count.  The source's SQL update does not touch the stored
aggregate confidence. -/
def updateDefaultCurrency (vendorName currency : String) (store : Store) : Store :=
  let (memory, store) := readOrCreate vendorName store
  let memory := { memory with defaultCurrency := some currency, usageCount := memory.usageCount + 1 }
  putVendorMemory vendorName memory store

/-- Predicate of the SKU-mapping lookup in `updateSkuMapping`. -/
def skuMappingMatches (normalizedDesc : String) (m : SkuMapping) : Bool :=
  strContains (toLowerStr m.description) normalizedDesc ||
    strContains normalizedDesc (toLowerStr m.description)

/-- The success/failure bump of an existing SKU mapping. -/
def bumpSkuMapping (success : Bool) (m : SkuMapping) : SkuMapping :=
  if success then
    { m with usageCount := m.usageCount + 1, confidence := min 1 (m.confidence + 1 / 10) }
  else { m with confidence := max (1 / 10) (m.confidence - 2 / 10) }

/-- `updateSkuMapping`: reinforces or creates a description → SKU
mapping, bumps the usage count and recomputes the aggregate
confidence. -/
def updateSkuMapping (vendorName description sku : String) (success : Bool)
    (store : Store) : Store :=
  let (memory, store) := readOrCreate vendorName store
  let normalizedDesc := (toLowerStr description).trim
  let memory :=
    if (memory.skuMappings.find? (skuMappingMatches normalizedDesc)).isSome then
      { memory with
        skuMappings :=
          updateFirst (skuMappingMatches normalizedDesc) (bumpSkuMapping success)
            memory.skuMappings }
    else
      { memory with
        skuMappings :=
          memory.skuMappings ++
            [{ description := normalizedDesc
               sku := sku
               confidence := if success then 6 / 10 else 3 / 10
               usageCount := 1 }] }
  let memory := { memory with usageCount := memory.usageCount + 1 }
  let memory := { memory with confidence := calculateOverallConfidence memory }
  putVendorMemory vendorName memory store

/-- `updatePaymentTerms`: sets the payment terms and bumps the usage
count.  The source's SQL update does not touch the stored aggregate
confidence. -/
def updatePaymentTerms (vendorName terms : String) (store : Store) : Store :=
  let (memory, store) := readOrCreate vendorName store
  let memory := { memory with paymentTerms := some terms, usageCount := memory.usageCount + 1 }
  putVendorMemory vendorName memory store

/-- `recordVendorUsage`: increments the usage count of an existing
vendor row (no-op when absent); the stored aggregate confidence is not
recomputed. -/
def recordVendorUsage (vendorName : String) (store : Store) : Store :=
  match getVendorMemory vendorName store with
  | some _ =>
    { store with
      vendorMemories :=
        store.vendorMemories.map fun r =>
          if r.vendorName = vendorName then { r with usageCount := r.usageCount + 1 } else r }
  | none => store

end VendorStore

/-! ## Apply service (src/services/apply.ts) -/

namespace Apply

/-- Auto-apply threshold of the Apply service. -/
def AUTO_APPLY_THRESHOLD : Rat := 85 / 100

/-- Propose threshold of the Apply service (declared in the source but
never read). -/
def PROPOSE_THRESHOLD : Rat := 60 / 100

/-- Escalate threshold of the Apply service (declared in the source but
never read). -/
def ESCALATE_THRESHOLD : Rat := 40 / 100

end Apply

/-- The raw-text extraction helpers of the Apply service
(`extractFromRawText`, `extractCurrencyFromRawText`,
`extractPaymentTerms`, `recalculateGrossFromRawText`).  Their
regex-pattern internals operate on free text and are out of the core
contract (the spec treats them as pluggable extractor collaborators);
the embedding abstracts them as an explicit collaborator record while
keeping every call-site check of `applyMemories` concrete. -/
structure Extractors where
  extractFromRawText : String → String → Option String
  extractCurrencyFromRawText : String → Option String
  extractPaymentTerms : String → Option String
  recalculateGrossFromRawText : String → Rat → Option Rat

/-- The intermediate state of `applyMemories`: the normalized invoice
being mutated and the corrections accumulated so far. -/
abbrev ApplyState := NormalizedInvoice × List ProposedCorrection

/-- `normalizeLineItems`: coerces line items to the canonical shape
with the `"UNKNOWN"` sentinel SKU and `amount = qty × unitPrice`. -/
def normalizeLineItems (items : List LineItem) : List NormalizedLineItem :=
  items.map fun item =>
    { sku :=
        match item.sku with
        | some s => if s = "" then "UNKNOWN" else s
        | none => "UNKNOWN"
      description := item.description.getD ""
      qty := item.qty
      unitPrice := item.unitPrice
      amount := item.qty * item.unitPrice }

/-- The initial normalized copy of the document built at the top of
`applyMemories` (currency defaulted to `'EUR'`, optional strings
coerced through JavaScript truthiness). -/
def initialNormalized (invoice : Invoice) : NormalizedInvoice :=
  { invoiceId := invoice.invoiceId
    vendor := invoice.vendor
    invoiceNumber := invoice.fields.invoiceNumber
    invoiceDate := invoice.fields.invoiceDate
    serviceDate := presentStr invoice.fields.serviceDate
    currency := currencyOrEUR invoice.fields.currency
    poNumber := presentStr invoice.fields.poNumber
    netTotal := invoice.fields.netTotal
    taxRate := invoice.fields.taxRate
    taxTotal := invoice.fields.taxTotal
    grossTotal := invoice.fields.grossTotal
    lineItems := normalizeLineItems invoice.fields.lineItems
    discountTerms := presentStr invoice.fields.discountTerms }

/-- Step 1 of `applyMemories`: service-date extraction through a
learned field mapping. -/
def applyServiceDateStep (invoice : Invoice) (vm : VendorMemory) (ext : Extractors)
    (st : ApplyState) : ApplyState :=
  if jsTruthyOpt st.1.serviceDate then st
  else
    match vm.fieldMappings.find? fun m => decide (m.targetField = "serviceDate") with
    | none => st
    | some serviceDateMapping =>
      match ext.extractFromRawText invoice.rawText serviceDateMapping.sourceLabel with
      | none => st
      | some extractedDate =>
        if extractedDate = "" then st
        else
          let correction : ProposedCorrection :=
            { field := "serviceDate"
              originalValue := JsVal.null
              proposedValue := JsVal.s extractedDate
              confidence := serviceDateMapping.confidence
              autoApplied := decide (serviceDateMapping.confidence ≥ Apply.AUTO_APPLY_THRESHOLD) }
          if correction.autoApplied then
            ({ st.1 with serviceDate := some extractedDate }, st.2 ++ [correction])
          else (st.1, st.2 ++ [correction])

/-- The inclusive-tax indicators scanned for in the raw text. -/
def vatInclusiveIndicators : List String :=
  ["inkl.", "incl.", "included", "inclusive", "mwst. inkl"]

/-- Step 2 of `applyMemories`: VAT-inclusive gross/tax recalculation. -/
def applyTaxStep (invoice : Invoice) (vm : VendorMemory) (ext : Extractors)
    (st : ApplyState) : ApplyState :=
  match vm.taxBehavior with
  | none => st
  | some tb =>
    if !tb.isInclusive then st
    else
      let hasVatInclusive := vatInclusiveIndicators.any fun ind =>
        strContains (toLowerStr invoice.rawText) (toLowerStr ind)
      if !hasVatInclusive then st
      else
        match ext.recalculateGrossFromRawText invoice.rawText st.1.grossTotal with
        | none => st
        | some recalculatedGross =>
          if recalculatedGross = 0 ∨ recalculatedGross = st.1.grossTotal then st
          else
            let recalculatedTax := recalculatedGross - st.1.netTotal
            let correction : ProposedCorrection :=
              { field := "grossTotal"
                originalValue := JsVal.n st.1.grossTotal
                proposedValue := JsVal.n recalculatedGross
                confidence := tb.confidence
                autoApplied := decide (tb.confidence ≥ Apply.AUTO_APPLY_THRESHOLD) }
            let taxCorrection : ProposedCorrection :=
              { field := "taxTotal"
                originalValue := JsVal.n st.1.taxTotal
                proposedValue := JsVal.n recalculatedTax
                confidence := tb.confidence
                autoApplied := decide (tb.confidence ≥ Apply.AUTO_APPLY_THRESHOLD) }
            let corrections := st.2 ++ [correction, taxCorrection]
            if correction.autoApplied then
              ({ st.1 with grossTotal := recalculatedGross, taxTotal := recalculatedTax },
                corrections)
            else (st.1, corrections)

/-- The raw-text branch of the currency recovery: proposes the
extracted currency at confidence 0.7, not auto-applied, yet writes it
into the normalized invoice. -/
def currencyFromRawText (invoice : Invoice) (ext : Extractors) (st : ApplyState) : ApplyState :=
  match ext.extractCurrencyFromRawText invoice.rawText with
  | none => st
  | some extractedCurrency =>
    if extractedCurrency = "" then st
    else
      let correction : ProposedCorrection :=
        { field := "currency"
          originalValue := JsVal.null
          proposedValue := JsVal.s extractedCurrency
          confidence := 7 / 10
          autoApplied := false }
      ({ st.1 with currency := extractedCurrency }, st.2 ++ [correction])

/-- Step 3 of `applyMemories`: currency recovery from the vendor's
default currency (preferred, never written) or from the raw text. -/
def applyCurrencyStep (invoice : Invoice) (vm : VendorMemory) (ext : Extractors)
    (st : ApplyState) : ApplyState :=
  if jsTruthyOpt invoice.fields.currency then st
  else
    match vm.defaultCurrency with
    | some dc =>
      if dc ≠ "" then
        (st.1,
          st.2 ++
            [{ field := "currency"
               originalValue := JsVal.null
               proposedValue := JsVal.s dc
               confidence := 3 / 4
               autoApplied := false }])
      else currencyFromRawText invoice ext st
    | none => currencyFromRawText invoice ext st

/-- The per-item body of the SKU-mapping loop of `applyMemories`. -/
def skuStepItem (vm : VendorMemory) (i : Nat) (item : NormalizedLineItem) :
    NormalizedLineItem × List ProposedCorrection :=
  if item.sku ≠ "" ∧ item.sku ≠ "UNKNOWN" then (item, [])
  else
    match vm.skuMappings.find? fun m =>
        strContains (toLowerStr item.description) (toLowerStr m.description) ||
          strContains (toLowerStr m.description) (toLowerStr item.description) with
    | none => (item, [])
    | some skuMapping =>
      let correction : ProposedCorrection :=
        { field := "lineItems[" ++ toString i ++ "].sku"
          originalValue := if item.sku = "" then JsVal.null else JsVal.s item.sku
          proposedValue := JsVal.s skuMapping.sku
          confidence := skuMapping.confidence
          autoApplied := decide (skuMapping.confidence ≥ Apply.AUTO_APPLY_THRESHOLD) }
      if correction.autoApplied then ({ item with sku := skuMapping.sku }, [correction])
      else (item, [correction])

/-- Step 4 of `applyMemories`: the SKU-mapping loop over all line
items (each iteration reads and writes only its own item and appends
its own correction, so the loop is a per-index map). -/
def applySkuStep (vm : VendorMemory) (st : ApplyState) : ApplyState :=
  let results := st.1.lineItems.enum.map fun p => skuStepItem vm p.1 p.2
  ({ st.1 with lineItems := results.map Prod.fst }, st.2 ++ (results.map Prod.snd).flatten)

/-- Step 5 of `applyMemories`: stored vendor payment terms applied
directly (no proposal). -/
def applyPaymentTermsStep (vm : VendorMemory) (st : ApplyState) : ApplyState :=
  if jsTruthyOpt vm.paymentTerms ∧ ¬jsTruthyOpt st.1.discountTerms then
    ({ st.1 with discountTerms := vm.paymentTerms }, st.2)
  else st

/-- Step 6 of `applyMemories`: Skonto/payment-terms extraction from the
raw text, proposed at confidence 0.8, not auto-applied, yet written
into the normalized invoice. -/
def applyDiscountStep (invoice : Invoice) (ext : Extractors) (st : ApplyState) : ApplyState :=
  if jsTruthyOpt st.1.discountTerms then st
  else
    match ext.extractPaymentTerms invoice.rawText with
    | none => st
    | some extractedTerms =>
      if extractedTerms = "" then st
      else
        let correction : ProposedCorrection :=
          { field := "discountTerms"
            originalValue := JsVal.null
            proposedValue := JsVal.s extractedTerms
            confidence := 4 / 5
            autoApplied := false }
        ({ st.1 with discountTerms := some extractedTerms }, st.2 ++ [correction])

/-- A purchase-order match candidate (`POMatch`); the free-text
reasoning is omitted. -/
structure POMatch where
  poNumber : String
  confidence : Rat
deriving DecidableEq, Repr

/-- `matchPurchaseOrder`: best SKU-overlap match among the vendor's
purchase orders, with a uniqueness bonus, falling back to the single
candidate PO at confidence 0.6. -/
def matchPurchaseOrder (invoice : Invoice) (purchaseOrders : List PurchaseOrder) :
    Option POMatch :=
  let vendorPOs := purchaseOrders.filter fun po => decide (po.vendor = invoice.vendor)
  if vendorPOs.isEmpty then none
  else
    let invoiceSKUs := (invoice.fields.lineItems.map fun i => i.sku).filterMap fun s =>
      match s with
      | some v => if v ≠ "" then some v else none
      | none => none
    let bestMatch := vendorPOs.foldl
      (fun best po =>
        let poSKUs := po.lineItems.map fun i => i.sku
        let matchingSKUs := invoiceSKUs.filter fun sku => poSKUs.contains (some sku)
        if matchingSKUs.isEmpty then best
        else
          let skuOverlap :=
            (matchingSKUs.length : Rat) / ((max invoiceSKUs.length poSKUs.length : Nat) : Rat)
          let uniquenessBonus : Rat := if vendorPOs.length = 1 then 1 / 5 else 0
          let confidence := min (19 / 20) (1 / 2 + skuOverlap * (3 / 10) + uniquenessBonus)
          match best with
          | none => some { poNumber := po.poNumber, confidence := confidence }
          | some b =>
            if b.confidence < confidence then
              some { poNumber := po.poNumber, confidence := confidence }
            else best)
      none
    match bestMatch with
    | some b => some b
    | none =>
      match vendorPOs with
      | [po] => some { poNumber := po.poNumber, confidence := 3 / 5 }
      | _ => none

/-- Step 7 of `applyMemories`: purchase-order matching when the PO
number is missing and purchase orders were supplied. -/
def applyPoStep (invoice : Invoice) (purchaseOrders : Option (List PurchaseOrder))
    (st : ApplyState) : ApplyState :=
  if jsTruthyOpt st.1.poNumber then st
  else
    match purchaseOrders with
    | none => st
    | some pos =>
      if pos.length = 0 then st
      else
        match matchPurchaseOrder invoice pos with
        | none => st
        | some matchedPO =>
          let correction : ProposedCorrection :=
            { field := "poNumber"
              originalValue := JsVal.null
              proposedValue := JsVal.s matchedPO.poNumber
              confidence := matchedPO.confidence
              autoApplied := decide (matchedPO.confidence ≥ Apply.AUTO_APPLY_THRESHOLD) }
          if correction.autoApplied then
            ({ st.1 with poNumber := some matchedPO.poNumber }, st.2 ++ [correction])
          else (st.1, st.2 ++ [correction])

/-- Result of the Apply stage (`ApplyResult`); the audit entry is
presentation-only and omitted. -/
structure ApplyResult where
  normalizedInvoice : NormalizedInvoice
  proposedCorrections : List ProposedCorrection
deriving DecidableEq, Repr

/-- `applyMemories`: the full Apply pipeline — vendor-memory steps
(service date, tax, currency, SKUs, payment terms) followed by the
memory-independent raw-text discount extraction and PO matching. -/
def applyMemories (invoice : Invoice) (memories : RecalledMemories)
    (purchaseOrders : Option (List PurchaseOrder)) (ext : Extractors) : ApplyResult :=
  let st0 : ApplyState := (initialNormalized invoice, [])
  let st5 :=
    match memories.vendorMemory with
    | none => st0
    | some vm =>
      applyPaymentTermsStep vm (applySkuStep vm (applyCurrencyStep invoice vm ext
        (applyTaxStep invoice vm ext (applyServiceDateStep invoice vm ext st0))))
  let st6 := applyDiscountStep invoice ext st5
  let st7 := applyPoStep invoice purchaseOrders st6
  { normalizedInvoice := st7.1, proposedCorrections := st7.2 }

/-! ## Resolution memory module (src/memory/resolutionMemory.ts) -/

/-- The row appended by `recordResolution`. -/
def mkResolutionRec (invoiceId vendorName discrepancyType : String)
    (originalValue correctedValue : JsVal) (resolution : Resolution)
    (humanFeedback : Option String) : ResolutionMemory :=
  { invoiceId := invoiceId
    vendorName := vendorName
    discrepancyType := discrepancyType
    originalValue := originalValue
    correctedValue := correctedValue
    resolution := resolution
    humanFeedback := humanFeedback }

/-- `recordResolution`: appends an immutable resolution row (the store
keeps rows in insertion order; readers sort by recency). -/
def recordResolution (invoiceId vendorName discrepancyType : String)
    (originalValue correctedValue : JsVal) (resolution : Resolution)
    (humanFeedback : Option String) (store : Store) : Store :=
  { store with
    resolutionMemories :=
      store.resolutionMemories ++
        [mkResolutionRec invoiceId vendorName discrepancyType originalValue correctedValue
          resolution humanFeedback] }

/-- Store-level `recordProcessedInvoice`. -/
def recordProcessedInvoice (invoice : Invoice) (store : Store) : Store :=
  { store with ledger := recordProcessedInvoiceLedger invoice store.ledger }

/-! ## Learn service (src/services/learn.ts) -/

/-- A memory-update summary row (`MemoryUpdate`); the source's `type`
field is renamed `mtype` (`type` clashes with Lean's vocabulary). -/
structure MemoryUpdate where
  mtype : String
  action : String
  details : String
  memoryId : Option Nat
deriving DecidableEq, Repr

/-- Guard of learn rule 1: a service-date correction whose rationale
mentions the Leistungsdatum anchor label. -/
def serviceDateRule (c : FieldCorrection) : Bool :=
  decide (c.field = "serviceDate") && strContains (toLowerStr c.reason) "leistungsdatum"

/-- Guard of learn rule 2: a tax/gross-total correction whose rationale
mentions VAT, MwSt or recalculation. -/
def taxRule (c : FieldCorrection) : Bool :=
  (decide (c.field = "taxTotal") || decide (c.field = "grossTotal")) &&
    (strContains (toLowerStr c.reason) "vat" || strContains (toLowerStr c.reason) "mwst" ||
      strContains (toLowerStr c.reason) "recalculated")

/-- Target resolution of learn rule 5: for a field name containing
`sku` and `lineItems`, the description of the referenced line item —
`none` when the index does not parse, is out of range, or the item has
no usable description (the source's nested guards). -/
def skuCorrectionTarget (invoice : Invoice) (field : String) : Option String :=
  if strContains field "sku" && strContains field "lineItems" then
    match lineItemIndex field with
    | some index =>
      match invoice.fields.lineItems.get? index with
      | some lineItem =>
        if lineItem.description.getD "" ≠ "" then some (lineItem.description.getD "")
        else none
      | none => none
    | none => none
  else none

/-- The accumulator threaded through Learn: store, memory updates and
audit detail sentences. -/
abbrev LearnAcc := Store × List MemoryUpdate × List String

/-- `processCorrection`: the six field-specific learn rules followed by
the generic reinforce/weaken pass over the matching correction
memory. -/
def processCorrection (invoice : Invoice) (vendorName : String) (correction : FieldCorrection)
    (decision : Resolution) (store : Store) : LearnAcc :=
  let isApproved : Bool := decide (decision = Resolution.approved)
  let acc : LearnAcc := (store, [], [])
  -- 1. ServiceDate extraction from label (e.g., Leistungsdatum)
  let acc :=
    if serviceDateRule correction then
      let (store, updates, details) := acc
      let store :=
        VendorStore.updateFieldMapping vendorName "Leistungsdatum" "serviceDate" isApproved store
      let (corrMem, store) := CorrectionStore.recordCorrection vendorName "serviceDate"
        "Leistungsdatum" CorrectionType.extract_from_rawtext correction.toVal store
      (store,
        updates ++
          [{ mtype := "vendor"
             action := if isApproved then "reinforce" else "weaken"
             details := (if isApproved then "Learned" else "Weakened") ++
               " field mapping: \"Leistungsdatum\" → serviceDate"
             memoryId := none },
           { mtype := "correction"
             action := "create"
             details := "Recorded correction pattern: extract serviceDate from rawText"
             memoryId := some corrMem.id }],
        details ++ ["Learned: \"Leistungsdatum\" = serviceDate for " ++ vendorName])
    else acc
  -- 2. Tax/VAT recalculation (VAT inclusive)
  let acc :=
    if taxRule correction then
      let (store, updates, details) := acc
      let store :=
        VendorStore.updateTaxBehavior vendorName true invoice.fields.taxRate isApproved store
      let (_, store) := CorrectionStore.recordCorrection vendorName correction.field
        "vat_inclusive" CorrectionType.recalculate_tax
        (JsVal.pair correction.fromVal correction.toVal) store
      (store,
        updates ++
          [{ mtype := "vendor"
             action := if isApproved then "reinforce" else "weaken"
             details := (if isApproved then "Learned" else "Weakened") ++
               " VAT behavior: prices include VAT"
             memoryId := none },
           { mtype := "correction"
             action := "create"
             details := "Recorded tax recalculation pattern"
             memoryId := none }],
        details ++ ["Learned: " ++ vendorName ++ " uses VAT-inclusive pricing"])
    else acc
  -- 3. Currency from rawText
  let acc :=
    if correction.field = "currency" then
      let (store, updates, details) := acc
      let store := VendorStore.updateDefaultCurrency vendorName correction.toVal.asString store
      let (_, store) := CorrectionStore.recordCorrection vendorName "currency"
        "missing_currency" CorrectionType.set_currency correction.toVal store
      (store,
        updates ++
          [{ mtype := "vendor"
             action := "reinforce"
             details := "Learned default currency: " ++ correction.toVal.asString
             memoryId := none }],
        details ++
          ["Learned: " ++ vendorName ++ " default currency = " ++ correction.toVal.asString])
    else acc
  -- 4. PO matching
  let acc :=
    if correction.field = "poNumber" then
      let (store, updates, details) := acc
      let (_, store) := CorrectionStore.recordCorrection vendorName "poNumber"
        correction.reason CorrectionType.match_po correction.toVal store
      (store,
        updates ++
          [{ mtype := "correction"
             action := "create"
             details := "Recorded PO matching pattern: " ++ correction.reason
             memoryId := none }],
        details ++ ["Learned: PO matching strategy for " ++ vendorName])
    else acc
  -- 5. SKU mapping from description
  let acc :=
    match skuCorrectionTarget invoice correction.field with
    | none => acc
    | some desc =>
      let (store, updates, details) := acc
      let store :=
        VendorStore.updateSkuMapping vendorName desc correction.toVal.asString isApproved store
      (store,
        updates ++
          [({ mtype := "vendor"
              action := if isApproved then "reinforce" else "weaken"
              details := (if isApproved then "Learned" else "Weakened") ++ " SKU mapping: \"" ++
                desc ++ "\" → " ++ correction.toVal.asString
              memoryId := none } : MemoryUpdate)],
        details ++
          ["Learned: \"" ++ desc ++ "\" = SKU " ++ correction.toVal.asString ++ " for " ++
            vendorName])
  -- 6. Payment/discount terms (Skonto)
  let acc :=
    if correction.field = "discountTerms" then
      let (store, updates, details) := acc
      let store := VendorStore.updatePaymentTerms vendorName correction.toVal.asString store
      let (_, store) := CorrectionStore.recordCorrection vendorName "discountTerms"
        "skonto" CorrectionType.set_payment_terms correction.toVal store
      (store,
        updates ++
          [({ mtype := "vendor"
              action := "reinforce"
              details := "Learned payment terms: " ++ correction.toVal.asString
              memoryId := none } : MemoryUpdate)],
        details ++ ["Learned: " ++ vendorName ++ " offers " ++ correction.toVal.asString])
    else acc
  -- Reinforce or weaken the existing correction memory for (vendor, field)
  let (store, updates, details) := acc
  match CorrectionStore.findMatchingCorrection vendorName correction.field none store with
  | none => (store, updates, details)
  | some existingCorrection =>
    if isApproved then
      (CorrectionStore.reinforceCorrection existingCorrection.id store,
        updates ++
          [({ mtype := "correction"
              action := "reinforce"
              details := "Reinforced correction pattern for " ++ correction.field ++
                " (success count increased)"
              memoryId := some existingCorrection.id } : MemoryUpdate)],
        details)
    else
      (CorrectionStore.weakenCorrection existingCorrection.id store,
        updates ++
          [({ mtype := "correction"
              action := "weaken"
              details := "Weakened correction pattern for " ++ correction.field ++
                " (failure count increased)"
              memoryId := some existingCorrection.id } : MemoryUpdate)],
        details)

/-- The vendor-memory-ensuring preamble of `learn`. -/
def ensureVendorStep (vendorName : String) (store : Store) : LearnAcc :=
  match VendorStore.getVendorMemory vendorName store with
  | some _ => (store, [], [])
  | none =>
    let (vm, store) := VendorStore.createVendorMemory vendorName store
    (store,
      [{ mtype := "vendor"
         action := "create"
         details := "Created new vendor memory for \"" ++ vendorName ++ "\""
         memoryId := some vm.id }],
      ["Created vendor memory for \"" ++ vendorName ++ "\""])

/-- The per-correction processing loop of `learn`. -/
def processAll (invoice : Invoice) (vendorName : String) (decision : Resolution)
    (acc : LearnAcc) (corrections : List FieldCorrection) : LearnAcc :=
  corrections.foldl
    (fun acc c =>
      let (store, updates, details) := acc
      let (store, us, ds) := processCorrection invoice vendorName c decision store
      (store, updates ++ us, details ++ ds))
    acc

/-- Result of the Learn stage (`LearnResult`); the audit entry's text
is the `"; "`-join of `auditDetails`. -/
structure LearnResult where
  memoryUpdates : List MemoryUpdate
  auditDetails : List String
deriving DecidableEq, Repr

/-- `learn`: ensures the vendor memory exists, processes every field
correction of the batch, records one resolution row per correction and
finally records the document in the processed ledger. -/
def learn (invoice : Invoice) (humanCorrection : HumanCorrection) (store : Store) :
    Store × LearnResult :=
  let vendorName := invoice.vendor
  let acc := ensureVendorStep vendorName store
  let acc := processAll invoice vendorName humanCorrection.finalDecision acc
    humanCorrection.corrections
  let (store, memoryUpdates, details) := acc
  let store := humanCorrection.corrections.foldl
    (fun store c =>
      recordResolution invoice.invoiceId vendorName c.field c.fromVal c.toVal
        humanCorrection.finalDecision (some c.reason) store)
    store
  let store := recordProcessedInvoice invoice store
  let details := details ++ ["Recorded invoice " ++ invoice.invoiceId ++ " as processed"]
  (store, { memoryUpdates := memoryUpdates, auditDetails := details })

/-- A field correction that none of the six learn rules fires on: the
first two rule guards are false, the field is none of the literal rule
fields, and the SKU rule finds no usable line-item target (unknown
field name, unparsable or out-of-range line-item index, or missing
description). -/
def correctionSkipped (invoice : Invoice) (c : FieldCorrection) : Prop :=
  serviceDateRule c = false ∧ taxRule c = false ∧ c.field ≠ "currency" ∧
    c.field ≠ "poNumber" ∧ skuCorrectionTarget invoice c.field = none ∧
    c.field ≠ "discountTerms"

instance (invoice : Invoice) (c : FieldCorrection) : Decidable (correctionSkipped invoice c) :=
  by unfold correctionSkipped; infer_instance

/-! ## Claim-statement vocabulary -/

/-- Hypothesis of the new-vendor rule: no vendor memory was recalled,
or the recalled vendor memory has fewer than two prior uses. -/
def newVendorCondition (memories : RecalledMemories) : Prop :=
  match memories.vendorMemory with
  | none => True
  | some vm => vm.usageCount < 2

instance (memories : RecalledMemories) : Decidable (newVendorCondition memories) := by
  unfold newVendorCondition
  cases memories.vendorMemory <;> infer_instance

/-- The overall-confidence computation exactly as the specification
words it: start from the base confidence; add `0.1 ×
vendorMemory.confidence` capped at 1.0 if vendor memory exists; if any
auto-applied corrections exist, average the current score with the mean
confidence of those corrections; multiply by 0.9 if any non-auto-applied
correction exists; multiply by 0.5 if a duplicate was recalled; multiply
by 0.8 if the vendor is new or low-history; finally clamp to
[0.1, 1.0]. -/
def claimedOverallConfidence (baseConfidence : Rat) (memories : RecalledMemories)
    (corrections : List ProposedCorrection) : Rat :=
  let afterVendorBoost :=
    match memories.vendorMemory with
    | some vm => min 1 (baseConfidence + (1 / 10) * vm.confidence)
    | none => baseConfidence
  let autoApplied := corrections.filter fun c => c.autoApplied
  let afterAutoAverage :=
    if autoApplied ≠ [] then
      (afterVendorBoost + (autoApplied.map fun c => c.confidence).sum /
        (autoApplied.length : Rat)) / 2
    else afterVendorBoost
  let afterPendingPenalty :=
    if corrections.any fun c => !c.autoApplied then afterAutoAverage * (9 / 10)
    else afterAutoAverage
  let afterDuplicatePenalty :=
    if memories.potentialDuplicate.isSome then afterPendingPenalty * (1 / 2)
    else afterPendingPenalty
  let afterNewVendorPenalty :=
    if newVendorCondition memories then afterDuplicatePenalty * (4 / 5)
    else afterDuplicatePenalty
  min 1 (max (1 / 10) afterNewVendorPenalty)

/-- The two mutating operations applicable to an existing correction
memory row (creation happens once, through `recordCorrection`). -/
inductive CorrectionOp where
  | reinforce
  | weaken
deriving DecidableEq, Repr

/-- Applies one reinforce/weaken operation to a correction memory row. -/
def applyCorrectionOp : CorrectionOp → CorrectionMemory → CorrectionMemory
  | .reinforce, r => CorrectionStore.reinforceRec r
  | .weaken, r => CorrectionStore.weakenRec r

/-- Write-consistency of one proposed correction with the normalized
invoice produced by Apply, relative to the initial normalized copy:
service-date, gross/tax-total, line-item-SKU and PO-number corrections
write their proposed value exactly when auto-applied; currency and
discount-terms corrections are always pending, and may nevertheless
carry their value into the document (the raw-text-extracted currency
and discount terms are written, the vendor-default currency is not). -/
def writeConsistent (invoice : Invoice) (norm : NormalizedInvoice)
    (c : ProposedCorrection) : Prop :=
  let init := initialNormalized invoice
  (c.field = "serviceDate" ∧
      (c.autoApplied = true → norm.serviceDate = valToOptStr c.proposedValue) ∧
      (c.autoApplied = false → norm.serviceDate = init.serviceDate))
  ∨ (c.field = "grossTotal" ∧
      (c.autoApplied = true → JsVal.n norm.grossTotal = c.proposedValue) ∧
      (c.autoApplied = false → norm.grossTotal = invoice.fields.grossTotal))
  ∨ (c.field = "taxTotal" ∧
      (c.autoApplied = true → JsVal.n norm.taxTotal = c.proposedValue) ∧
      (c.autoApplied = false → norm.taxTotal = invoice.fields.taxTotal))
  ∨ (c.field = "currency" ∧ c.autoApplied = false ∧
      (norm.currency = init.currency ∨ valToOptStr c.proposedValue = some norm.currency))
  ∨ (∃ i item₀ item₁, c.field = "lineItems[" ++ toString i ++ "].sku" ∧
      init.lineItems.get? i = some item₀ ∧ norm.lineItems.get? i = some item₁ ∧
      (c.autoApplied = true → valToOptStr c.proposedValue = some item₁.sku) ∧
      (c.autoApplied = false → item₁.sku = item₀.sku))
  ∨ (c.field = "discountTerms" ∧ c.autoApplied = false ∧
      norm.discountTerms = valToOptStr c.proposedValue)
  ∨ (c.field = "poNumber" ∧
      (c.autoApplied = true → norm.poNumber = valToOptStr c.proposedValue) ∧
      (c.autoApplied = false → norm.poNumber = init.poNumber))

/-! ## Concrete fixtures for witnesses and counterexamples -/

/-- The store before anything is learned. -/
def emptyStore : Store :=
  { nextId := 0
    vendorMemories := []
    correctionMemories := []
    resolutionMemories := []
    ledger := [] }

/-- Empty recalled memories (new vendor, nothing learned). -/
def noMemories : RecalledMemories :=
  { vendorMemory := none
    correctionMemories := []
    resolutionMemories := []
    potentialDuplicate := none }

/-- Invoice fields shared by several concrete scenarios. -/
def sampleFields : InvoiceFields :=
  { invoiceNumber := "R-1001"
    invoiceDate := some 0
    serviceDate := none
    currency := none
    poNumber := none
    netTotal := 100
    taxRate := 19
    taxTotal := 19
    grossTotal := 119
    lineItems := []
    discountTerms := none }

/-- A concrete incoming document used by several scenarios. -/
def sampleInvoice : Invoice :=
  { invoiceId := "INV-1"
    vendor := "Acme"
    fields := sampleFields
    confidence := 9 / 10
    rawText := "Rechnung R-1001" }

/-- A concrete normalized invoice for Decide witnesses. -/
def sampleNormalized : NormalizedInvoice := initialNormalized sampleInvoice

/-- Second document of the duplicate counterexample: same vendor,
number and gross total as `sampleInvoice`, dated 30 days later. -/
def dupFarInvoice : Invoice :=
  { sampleInvoice with fields := { sampleFields with invoiceDate := some 30 } }

/-- First document of the duplicate-round-trip witness. -/
def dupBaseInvoice : Invoice := sampleInvoice

/-- Near-duplicate of `dupBaseInvoice`: 3 days later, gross total
within 1 %. -/
def dupNearInvoice : Invoice :=
  { sampleInvoice with
    fields := { sampleFields with invoiceDate := some 3, grossTotal := 119 } }

/-- A currency correction used by the Learn scenarios. -/
def currencyCorrection : FieldCorrection :=
  { field := "currency"
    fromVal := JsVal.null
    toVal := JsVal.s "USD"
    reason := "currency missing from extraction" }

/-- A malformed SKU correction referencing line item 5 of a document
with no line items. -/
def badSkuCorrection : FieldCorrection :=
  { field := "lineItems[5].sku"
    fromVal := JsVal.null
    toVal := JsVal.s "FREIGHT"
    reason := "freight position needs canonical sku" }

/-- Learn batch containing the malformed SKU correction followed by a
valid currency correction. -/
def batchWithBad : HumanCorrection :=
  { invoiceId := "INV-1"
    vendor := "Acme"
    corrections := [badSkuCorrection, currencyCorrection]
    finalDecision := Resolution.approved }

/-- The same Learn batch without the malformed correction. -/
def batchWithoutBad : HumanCorrection :=
  { invoiceId := "INV-1"
    vendor := "Acme"
    corrections := [currencyCorrection]
    finalDecision := Resolution.approved }

/-- A vendor memory whose stored aggregate confidence is consistent
with its sub-memories (one field mapping at 0.6) and usage count 1:
0.3 + 0.6 × 0.7 × (1/5) = 48/125. -/
def consistentVendor : VendorMemory :=
  { id := 0
    vendorName := "Acme"
    fieldMappings :=
      [{ sourceLabel := "Leistungsdatum"
         targetField := "serviceDate"
         confidence := 6 / 10
         successCount := 1
         failureCount := 0 }]
    taxBehavior := none
    defaultCurrency := none
    skuMappings := []
    paymentTerms := none
    confidence := 48 / 125
    usageCount := 1 }

/-- A store holding just `consistentVendor`. -/
def consistentVendorStore : Store :=
  { nextId := 1
    vendorMemories := [consistentVendor]
    correctionMemories := []
    resolutionMemories := []
    ledger := [] }

/-- Extractors used by the Apply counterexample: currency `"USD"` and
Skonto terms are found in the raw text, nothing else. -/
def sampleExtractors : Extractors :=
  { extractFromRawText := fun _ _ => none
    extractCurrencyFromRawText := fun _ => some "USD"
    extractPaymentTerms := fun _ => some "2% Skonto within 14 days"
    recalculateGrossFromRawText := fun _ _ => none }

/-- Extractors that never find anything. -/
def emptyExtractors : Extractors :=
  { extractFromRawText := fun _ _ => none
    extractCurrencyFromRawText := fun _ => none
    extractPaymentTerms := fun _ => none
    recalculateGrossFromRawText := fun _ _ => none }

/-- Recalled memories holding a vendor memory with enough history and
no default currency, used by the Apply counterexample. -/
def applyMemoriesFixture : RecalledMemories :=
  { vendorMemory :=
      some { id := 0
             vendorName := "Acme"
             fieldMappings := []
             taxBehavior := none
             defaultCurrency := none
             skuMappings := []
             paymentTerms := none
             confidence := 1 / 2
             usageCount := 5 }
    correctionMemories := []
    resolutionMemories := []
    potentialDuplicate := none }

/-- The stale vendor record left behind by `updateDefaultCurrency` on
the concrete consistent store. -/
def staleVendor : VendorMemory :=
  { consistentVendor with defaultCurrency := some "USD", usageCount := 2 }

/-- The pending currency correction proposed from the raw text in the
concrete Apply run. -/
def pendingCurrencyCorrection : ProposedCorrection :=
  { field := "currency"
    originalValue := JsVal.null
    proposedValue := JsVal.s "USD"
    confidence := 7 / 10
    autoApplied := false }

/-- The pending discount-terms correction proposed from the raw text in
the concrete Apply run. -/
def pendingDiscountCorrection : ProposedCorrection :=
  { field := "discountTerms"
    originalValue := JsVal.null
    proposedValue := JsVal.s "2% Skonto within 14 days"
    confidence := 4 / 5
    autoApplied := false }

/-! ## Theorems -/

/-- Claim C1: for every invocation of the Decide stage where the
recalled memories contain no vendor memory for the document's vendor,
or a vendor memory with `usageCount < 2`, the result has
`requiresHumanReview = true`, regardless of the normalized document,
the proposed corrections, and the base confidence. -/
theorem decide_new_vendor_requires_review (normalizedInvoice : NormalizedInvoice)
    (proposedCorrections : List ProposedCorrection) (memories : RecalledMemories)
    (originalConfidence : Rat) (h : newVendorCondition memories) :
    (makeDecision normalizedInvoice proposedCorrections memories
      originalConfidence).requiresHumanReview = true := by
  unfold makeDecision
  unfold newVendorCondition at h
  cases hvm : memories.vendorMemory with
  | none => simp [hvm]
  | some vm =>
    rw [hvm] at h
    have h' : vm.usageCount < 2 := h
    simp [hvm, h']

/-- Witness for C1: a concrete new-vendor document is escalated. -/
theorem decide_new_vendor_requires_review_witness :
    newVendorCondition noMemories ∧
      (makeDecision sampleNormalized [] noMemories (9 / 10)).requiresHumanReview = true :=
  ⟨by simp [newVendorCondition, noMemories],
    decide_new_vendor_requires_review sampleNormalized [] noMemories (9 / 10)
      (by simp [newVendorCondition, noMemories])⟩

/-- Helper: the two orientations of clamping to an interval agree. -/
theorem clamp_comm (a b s : Rat) (h : a ≤ b) : max a (min b s) = min b (max a s) := by
  rw [max_min_distrib_left, max_eq_right h]

/-- Claim C4: the overall confidence score returned by Decide equals
the specification's staged computation (base confidence, capped vendor
boost, auto-applied averaging, pending/duplicate/new-vendor penalties,
final clamp to [0.1, 1]). -/
theorem decide_confidence_formula (normalizedInvoice : NormalizedInvoice)
    (proposedCorrections : List ProposedCorrection) (memories : RecalledMemories)
    (originalConfidence : Rat) :
    (makeDecision normalizedInvoice proposedCorrections memories
        originalConfidence).confidenceScore =
      claimedOverallConfidence originalConfidence memories proposedCorrections := by
  obtain ⟨vmem, cmem, rmem, dup⟩ := memories
  show calculateOverallConfidence originalConfidence ⟨vmem, cmem, rmem, dup⟩
      proposedCorrections =
    claimedOverallConfidence originalConfidence ⟨vmem, cmem, rmem, dup⟩ proposedCorrections
  have hauto : (0 < (proposedCorrections.filter fun c => c.autoApplied).length) ↔
      (proposedCorrections.filter fun c => c.autoApplied) ≠ [] := List.length_pos
  have hpend : (0 < (proposedCorrections.filter fun c => !c.autoApplied).length) ↔
      (proposedCorrections.any fun c => !c.autoApplied) = true := by
    rw [List.length_pos, Ne, List.filter_eq_nil_iff, List.any_eq_true]
    push_neg
    simp
  unfold calculateOverallConfidence claimedOverallConfidence
  cases vmem with
  | none =>
    have hcond : newVendorCondition ⟨none, cmem, rmem, dup⟩ := by
      simp [newVendorCondition]
    simp only [mul_comm]
    rw [if_congr hauto rfl rfl, if_congr hpend rfl rfl, if_pos hcond]
    exact clamp_comm _ _ _ (by norm_num)
  | some vm =>
    have hcond : newVendorCondition ⟨some vm, cmem, rmem, dup⟩ ↔ vm.usageCount < 2 :=
      Iff.rfl
    simp only [mul_comm]
    rw [if_congr hauto rfl rfl, if_congr hpend rfl rfl, if_congr hcond rfl rfl]
    exact clamp_comm _ _ _ (by norm_num)

/-- Counterexample for C8 as stated: `decay(c, 0) = c` fails below the
0.1 floor — `decay(0.05, 0) = 0.1 ≠ 0.05`. -/
theorem decay_at_zero_counterexample :
    applyConfidenceDecay (1 / 20) 0 = 1 / 10 ∧ applyConfidenceDecay (1 / 20) 0 ≠ 1 / 20 := by
  constructor <;> norm_num [applyConfidenceDecay]

/-- Claim C8 (amended): the decay function is
`max(0.1, c × 0.99^d)`; it is monotonically non-increasing in the
elapsed days for every confidence `c`, and `decay(c, 0) = c` holds for
every `c ≥ 0.1` (below the floor, `decay(c, 0) = 0.1`). -/
theorem decay_amended :
    (∀ (c : Rat) (d : Nat),
        applyConfidenceDecay c d = max (1 / 10) (c * (99 / 100) ^ d))
    ∧ (∀ (c : Rat) (d1 d2 : Nat), d1 < d2 →
        applyConfidenceDecay c d2 ≤ applyConfidenceDecay c d1)
    ∧ (∀ c : Rat, 1 / 10 ≤ c → applyConfidenceDecay c 0 = c) := by
  refine ⟨fun c d => rfl, fun c d1 d2 h => ?_, fun c hc => ?_⟩
  · unfold applyConfidenceDecay
    rcases le_total c 0 with hc | hc
    · have h1 : c * (99 / 100 : Rat) ^ d1 ≤ 0 :=
        mul_nonpos_of_nonpos_of_nonneg hc (pow_nonneg (by norm_num) _)
      have h2 : c * (99 / 100 : Rat) ^ d2 ≤ 0 :=
        mul_nonpos_of_nonpos_of_nonneg hc (pow_nonneg (by norm_num) _)
      rw [max_eq_left (le_trans h1 (by norm_num)), max_eq_left (le_trans h2 (by norm_num))]
    · refine max_le_max (le_refl _) ?_
      exact mul_le_mul_of_nonneg_left
        (pow_le_pow_of_le_one (by norm_num) (by norm_num) (le_of_lt h)) hc
  · unfold applyConfidenceDecay
    rw [pow_zero, mul_one]
    exact max_eq_right hc

/-- Witness for C8 (amended): a concrete decay evaluation at 0 and 1
days. -/
theorem decay_amended_witness :
    (0 : Nat) < 1 ∧ (1 : Rat) / 10 ≤ 1 / 2 ∧
      applyConfidenceDecay (1 / 2) 1 ≤ applyConfidenceDecay (1 / 2) 0 ∧
      applyConfidenceDecay (1 / 2) 0 = 1 / 2 :=
  ⟨by norm_num, by norm_num, decay_amended.2.1 (1 / 2) 0 1 (by norm_num),
    decay_amended.2.2 (1 / 2) (by norm_num)⟩

/-- Counterexample for C6 as stated: recording a brand-new correction
pattern stores the fixed initial confidence 0.6, not the
`clamp(0.1, 0.95, 0.3 + adjustedRate × 0.65 × observationFactor)` value
of its stored counts (which is 31/60 for one success and no failure). -/
theorem correction_confidence_create_counterexample :
    ((CorrectionStore.recordCorrection "Acme" "currency" "missing_currency"
        CorrectionType.set_currency (JsVal.s "USD") emptyStore).2.correctionMemories.map
      fun r => (r.successCount, r.failureCount, r.confidence)) = [(1, 0, 6 / 10)] ∧
    CorrectionStore.calculateCorrectionConfidence 1 0 = 31 / 60 ∧
    (6 / 10 : Rat) ≠ 31 / 60 := by
  refine ⟨by rfl, by norm_num [CorrectionStore.calculateCorrectionConfidence], by norm_num⟩

/-- Helper for C6: one reinforce/weaken operation leaves the stored
confidence equal to the recomputed confidence of the stored counts. -/
theorem applyCorrectionOp_consistent (r : CorrectionMemory) (op : CorrectionOp) :
    (applyCorrectionOp op r).confidence =
      CorrectionStore.calculateCorrectionConfidence (applyCorrectionOp op r).successCount
        (applyCorrectionOp op r).failureCount := by
  cases op <;> rfl

/-- Claim C6 (amended): after any non-empty sequence of
reinforce/weaken operations the stored confidence of a correction
memory equals `clamp(0.1, 0.95, 0.3 + adjustedRate × 0.65 ×
observationFactor)` of its stored counts (failures weighted twice,
floored at 0.1, capped at 0.95); the freshly created record instead
stores the fixed initial confidence 0.6. -/
theorem correction_confidence_invariant_amended :
    (∀ (r : CorrectionMemory) (op : CorrectionOp),
        (applyCorrectionOp op r).confidence =
          CorrectionStore.calculateCorrectionConfidence (applyCorrectionOp op r).successCount
            (applyCorrectionOp op r).failureCount)
    ∧ (∀ (ops : List CorrectionOp) (r : CorrectionMemory), ops ≠ [] →
        (ops.foldl (fun r op => applyCorrectionOp op r) r).confidence =
          CorrectionStore.calculateCorrectionConfidence
            (ops.foldl (fun r op => applyCorrectionOp op r) r).successCount
            (ops.foldl (fun r op => applyCorrectionOp op r) r).failureCount)
    ∧ (∀ s f : Nat, 1 / 10 ≤ CorrectionStore.calculateCorrectionConfidence s f ∧
        CorrectionStore.calculateCorrectionConfidence s f ≤ 19 / 20)
    ∧ (∀ (id : Nat) (v fld pat : String) (ct : CorrectionType) (cv : JsVal),
        (CorrectionStore.createdCorrectionRec id v fld pat ct cv).confidence = 6 / 10) := by
  refine ⟨applyCorrectionOp_consistent, ?_, ?_, fun id v fld pat ct cv => rfl⟩
  · intro ops
    induction ops with
    | nil => intro r h; exact absurd rfl h
    | cons op rest ih =>
      intro r _
      cases hrest : rest with
      | nil => simpa using applyCorrectionOp_consistent r op
      | cons op2 rest2 =>
        rw [← hrest]
        simpa using ih (applyCorrectionOp op r) (by simp [hrest])
  · intro s f
    unfold CorrectionStore.calculateCorrectionConfidence
    by_cases h : s + f = 0
    · simp [h]
      norm_num
    · simp only [h, if_false]
      constructor
      · exact le_min (by norm_num) (le_max_left _ _)
      · exact le_trans (min_le_left _ _) (by norm_num)

/-- Witness for C6 (amended): one weaken operation on a freshly created
record restores the invariant. -/
theorem correction_confidence_invariant_amended_witness :
    ([CorrectionOp.weaken] : List CorrectionOp) ≠ [] ∧
      (([CorrectionOp.weaken].foldl (fun r op => applyCorrectionOp op r)
          (CorrectionStore.createdCorrectionRec 0 "Acme" "currency" "missing_currency"
            CorrectionType.set_currency JsVal.null)).confidence =
        CorrectionStore.calculateCorrectionConfidence
          ([CorrectionOp.weaken].foldl (fun r op => applyCorrectionOp op r)
            (CorrectionStore.createdCorrectionRec 0 "Acme" "currency" "missing_currency"
              CorrectionType.set_currency JsVal.null)).successCount
          ([CorrectionOp.weaken].foldl (fun r op => applyCorrectionOp op r)
            (CorrectionStore.createdCorrectionRec 0 "Acme" "currency" "missing_currency"
              CorrectionType.set_currency JsVal.null)).failureCount) :=
  ⟨by simp,
    correction_confidence_invariant_amended.2.1 [CorrectionOp.weaken]
      (CorrectionStore.createdCorrectionRec 0 "Acme" "currency" "missing_currency"
        CorrectionType.set_currency JsVal.null) (by simp)⟩

/-- Counterexample for C2 as stated: a second document with the same
vendor, number and exactly equal gross total but dated 30 days later is
still reported as a duplicate, because the fingerprint
`md5(vendor|number|grossTotal)` ignores the date. -/
theorem duplicate_roundtrip_counterexample :
    checkDuplicate (recordProcessedInvoiceLedger sampleInvoice []) dupFarInvoice =
      some (mkProcessedEntry sampleInvoice) ∧
    dupFarInvoice.vendor = sampleInvoice.vendor ∧
    dupFarInvoice.fields.invoiceNumber = sampleInvoice.fields.invoiceNumber ∧
    sampleInvoice.fields.invoiceDate = some 0 ∧
    dupFarInvoice.fields.invoiceDate = some 30 ∧
    dupFarInvoice.fields.grossTotal = sampleInvoice.fields.grossTotal := by
  refine ⟨by rfl, by rfl, by rfl, by rfl, by rfl, by rfl⟩

/-- Claim C2 (amended): after recording a document, checking a second
document with the same vendor and invoice number yields the recorded
entry when the dates are within 7 days and the gross totals within 1 %
of the recorded total; it yields nothing when the gross totals differ
(by more than the 1 % tolerance, or at all when the dates are more than
7 days apart); but a second document whose gross total exactly equals
the recorded one is reported as a duplicate even when the dates are
more than 7 days apart, through the fingerprint fallback. -/
theorem duplicate_roundtrip_amended (ledger : List ProcessedInvoice) (inv1 inv2 : Invoice)
    (d1 d2 : Int) (hv : inv2.vendor = inv1.vendor)
    (hn : inv2.fields.invoiceNumber = inv1.fields.invoiceNumber)
    (hd1 : inv1.fields.invoiceDate = some d1) (hd2 : inv2.fields.invoiceDate = some d2) :
    ((d2 - d1).natAbs ≤ 7 →
      |inv1.fields.grossTotal - inv2.fields.grossTotal| ≤
        inv1.fields.grossTotal * (1 / 100) →
      checkDuplicate (recordProcessedInvoiceLedger inv1 ledger) inv2 =
        some (mkProcessedEntry inv1))
    ∧ (inv1.fields.grossTotal * (1 / 100) <
        |inv1.fields.grossTotal - inv2.fields.grossTotal| →
        inv2.fields.grossTotal ≠ inv1.fields.grossTotal →
        checkDuplicate (recordProcessedInvoiceLedger inv1 ledger) inv2 = none)
    ∧ (7 < (d2 - d1).natAbs → inv2.fields.grossTotal ≠ inv1.fields.grossTotal →
        checkDuplicate (recordProcessedInvoiceLedger inv1 ledger) inv2 = none)
    ∧ (7 < (d2 - d1).natAbs → inv2.fields.grossTotal = inv1.fields.grossTotal →
        checkDuplicate (recordProcessedInvoiceLedger inv1 ledger) inv2 =
          some (mkProcessedEntry inv1)) := by
  have hhead : ((recordProcessedInvoiceLedger inv1 ledger).filter fun e =>
      decide (e.vendorName = inv2.vendor ∧
        e.invoiceNumber = inv2.fields.invoiceNumber)).head? =
      some (mkProcessedEntry inv1) := by
    unfold recordProcessedInvoiceLedger
    rw [List.filter_cons]
    simp [mkProcessedEntry, hv, hn]
  unfold checkDuplicate
  rw [hhead]
  simp only [mkProcessedEntry, generateInvoiceHash, hd1, hd2]
  refine ⟨fun hdate hamt => ?_, fun hamt hne => ?_, fun hdate hne => ?_, fun hdate heq => ?_⟩
  · rw [if_pos]
    exact ⟨by simpa using hdate, hamt⟩
  · rw [if_neg, if_neg]
    · simp only [InvoiceHash.mk.injEq, not_and]
      intro _ _
      exact fun h => hne h.symm
    · exact fun h => absurd h.2 (not_le.mpr hamt)
  · rw [if_neg, if_neg]
    · simp only [InvoiceHash.mk.injEq, not_and]
      intro _ _
      exact fun h => hne h.symm
    · intro h
      have := h.1
      simp at this
      omega
  · rw [if_neg, if_pos]
    · simp only [InvoiceHash.mk.injEq]
      exact ⟨hv.symm, hn.symm, heq.symm⟩
    · intro h
      have := h.1
      simp at this
      omega

/-- Witness for C2 (amended): a concrete round trip — a near-identical
document 3 days later within 1 % is reported as a duplicate. -/
theorem duplicate_roundtrip_amended_witness :
    dupNearInvoice.vendor = dupBaseInvoice.vendor ∧
      dupNearInvoice.fields.invoiceNumber = dupBaseInvoice.fields.invoiceNumber ∧
      dupBaseInvoice.fields.invoiceDate = some 0 ∧
      dupNearInvoice.fields.invoiceDate = some 3 ∧
      ((3 - 0 : Int)).natAbs ≤ 7 ∧
      |dupBaseInvoice.fields.grossTotal - dupNearInvoice.fields.grossTotal| ≤
        dupBaseInvoice.fields.grossTotal * (1 / 100) ∧
      checkDuplicate (recordProcessedInvoiceLedger dupBaseInvoice []) dupNearInvoice =
        some (mkProcessedEntry dupBaseInvoice) := by
  refine ⟨rfl, rfl, rfl, rfl, by norm_num, by norm_num [dupBaseInvoice, dupNearInvoice,
    sampleInvoice, sampleFields], ?_⟩
  exact (duplicate_roundtrip_amended [] dupBaseInvoice dupNearInvoice 0 3 rfl rfl rfl rfl).1
    (by norm_num)
    (by norm_num [dupBaseInvoice, dupNearInvoice, sampleInvoice, sampleFields])

/-- Helper: replacing every row of the stored vendor list that carries
the given vendor name makes the lookup return the replacement. -/
theorem find?_map_const_replace {v : String} {m : VendorMemory} (hname : m.vendorName = v) :
    ∀ l : List VendorMemory,
      (l.find? fun r => decide (r.vendorName = v)).isSome →
      ((l.map fun r => if r.vendorName = v then m else r).find? fun r =>
        decide (r.vendorName = v)) = some m := by
  intro l h
  induction l with
  | nil => simp at h
  | cons a as ih =>
    by_cases ha : a.vendorName = v
    · simp [ha, hname]
    · rw [List.find?_cons_of_neg _ (by simp [ha])] at h
      simpa [ha, List.find?_cons_of_neg _ (by simp [ha] : ¬(decide (a.vendorName = v) = true))]
        using ih h

/-- Helper: updating in place every row that carries the given vendor
name, with a name-preserving function, makes the lookup return the
updated first match. -/
theorem find?_map_fun_update (f : VendorMemory → VendorMemory)
    (hf : ∀ r, (f r).vendorName = r.vendorName) (v : String) :
    ∀ (l : List VendorMemory) (m₀ : VendorMemory),
      (l.find? fun r => decide (r.vendorName = v)) = some m₀ →
      ((l.map fun r => if r.vendorName = v then f r else r).find? fun r =>
        decide (r.vendorName = v)) = some (f m₀) := by
  intro l
  induction l with
  | nil => intro m₀ h; simp at h
  | cons a as ih =>
    intro m₀ h
    by_cases ha : a.vendorName = v
    · rw [List.find?_cons_of_pos _ (by simp [ha])] at h
      cases h
      simp [ha, List.find?_cons_of_pos, hf]
    · rw [List.find?_cons_of_neg _ (by simp [ha])] at h
      simpa [ha, List.find?_cons_of_neg _ (by simp [ha] : ¬(decide (a.vendorName = v) = true))]
        using ih m₀ h

/-- Helper: after a row write-back keyed by vendor name, the vendor
lookup returns the written record (provided a row with that name
exists). -/
theorem get_put (v : String) (store : Store) (m : VendorMemory) (hname : m.vendorName = v)
    (hrow : ∃ r ∈ store.vendorMemories, r.vendorName = v) :
    VendorStore.getVendorMemory v (VendorStore.putVendorMemory v m store) = some m := by
  unfold VendorStore.getVendorMemory VendorStore.putVendorMemory
  apply find?_map_const_replace hname
  rw [List.find?_isSome]
  obtain ⟨r, hr, hveq⟩ := hrow
  exact ⟨r, hr, by simp [hveq]⟩

/-- Helper: the store produced by the get-or-create preamble holds a
row with the requested vendor name. -/
theorem readOrCreate_row (v : String) (store : Store) :
    ∃ r ∈ (VendorStore.readOrCreate v store).2.vendorMemories, r.vendorName = v := by
  unfold VendorStore.readOrCreate
  cases h : VendorStore.getVendorMemory v store with
  | some m₀ =>
    refine ⟨m₀, ?_, ?_⟩
    · exact List.mem_of_find?_eq_some h
    · simpa using List.find?_some h
  | none =>
    refine ⟨VendorStore.createdVendorRec store.nextId v, ?_, rfl⟩
    unfold VendorStore.createVendorMemory
    simp

/-- Helper: the record produced by the get-or-create preamble carries
the requested vendor name. -/
theorem readOrCreate_vendorName (v : String) (store : Store) :
    (VendorStore.readOrCreate v store).1.vendorName = v := by
  unfold VendorStore.readOrCreate
  cases h : VendorStore.getVendorMemory v store with
  | some m₀ =>
    unfold VendorStore.getVendorMemory at h
    simpa using List.find?_some h
  | none => rfl

/-- Counterexample for C7 as stated: `updateDefaultCurrency` bumps the
usage count without recomputing the stored aggregate confidence, so a
previously consistent vendor memory is left inconsistent with its
sub-memories and usage count. -/
theorem vendor_aggregate_counterexample :
    consistentVendor.confidence = VendorStore.calculateOverallConfidence consistentVendor ∧
    VendorStore.getVendorMemory "Acme"
        (VendorStore.updateDefaultCurrency "Acme" "USD" consistentVendorStore) =
      some staleVendor ∧
    staleVendor.confidence ≠ VendorStore.calculateOverallConfidence staleVendor := by
  refine ⟨?_, by rfl, ?_⟩
  · norm_num [VendorStore.calculateOverallConfidence, consistentVendor]
  · norm_num [VendorStore.calculateOverallConfidence, staleVendor, consistentVendor]

/-- Claim C7 (amended): `updateFieldMapping`, `updateTaxBehavior` and
`updateSkuMapping` leave the stored aggregate confidence equal to
`calculateOverallConfidence` of the stored record (0.3 +
avg(sub-memory confidences) × 0.7 × min(1, usageCount/5)); but
`updateDefaultCurrency`, `updatePaymentTerms` and `recordVendorUsage`
mutate the record (usage count, currency, terms) without recomputing
the stored aggregate, which can leave it inconsistent. -/
theorem vendor_aggregate_amended :
    (∀ (v sl tf : String) (succ : Bool) (store : Store),
        ∃ m, VendorStore.getVendorMemory v
            (VendorStore.updateFieldMapping v sl tf succ store) = some m ∧
          m.confidence = VendorStore.calculateOverallConfidence m)
    ∧ (∀ (v : String) (incl : Bool) (rate : Rat) (succ : Bool) (store : Store),
        ∃ m, VendorStore.getVendorMemory v
            (VendorStore.updateTaxBehavior v incl rate succ store) = some m ∧
          m.confidence = VendorStore.calculateOverallConfidence m)
    ∧ (∀ (v desc sku : String) (succ : Bool) (store : Store),
        ∃ m, VendorStore.getVendorMemory v
            (VendorStore.updateSkuMapping v desc sku succ store) = some m ∧
          m.confidence = VendorStore.calculateOverallConfidence m)
    ∧ (∀ (v c : String) (store : Store) (m₀ : VendorMemory),
        VendorStore.getVendorMemory v store = some m₀ →
        VendorStore.getVendorMemory v (VendorStore.updateDefaultCurrency v c store) =
          some { m₀ with defaultCurrency := some c, usageCount := m₀.usageCount + 1 })
    ∧ (∀ (v terms : String) (store : Store) (m₀ : VendorMemory),
        VendorStore.getVendorMemory v store = some m₀ →
        VendorStore.getVendorMemory v (VendorStore.updatePaymentTerms v terms store) =
          some { m₀ with paymentTerms := some terms, usageCount := m₀.usageCount + 1 })
    ∧ (∀ (v : String) (store : Store) (m₀ : VendorMemory),
        VendorStore.getVendorMemory v store = some m₀ →
        VendorStore.getVendorMemory v (VendorStore.recordVendorUsage v store) =
          some { m₀ with usageCount := m₀.usageCount + 1 }) := by
  refine ⟨?_, ?_, ?_, ?_, ?_, ?_⟩
  · intro v sl tf succ store
    rcases hro : VendorStore.readOrCreate v store with ⟨mem, store₂⟩
    have hname : mem.vendorName = v := by
      have h := readOrCreate_vendorName v store; rw [hro] at h; exact h
    have hrow : ∃ r ∈ store₂.vendorMemories, r.vendorName = v := by
      have h := readOrCreate_row v store; rw [hro] at h; exact h
    unfold VendorStore.updateFieldMapping
    rw [hro]
    refine ⟨_, get_put v store₂ _ ?_ hrow, rfl⟩
    split <;> simpa using hname
  · intro v incl rate succ store
    rcases hro : VendorStore.readOrCreate v store with ⟨mem, store₂⟩
    have hname : mem.vendorName = v := by
      have h := readOrCreate_vendorName v store; rw [hro] at h; exact h
    have hrow : ∃ r ∈ store₂.vendorMemories, r.vendorName = v := by
      have h := readOrCreate_row v store; rw [hro] at h; exact h
    unfold VendorStore.updateTaxBehavior
    rw [hro]
    refine ⟨_, get_put v store₂ _ ?_ hrow, rfl⟩
    split <;> simpa using hname
  · intro v desc sku succ store
    rcases hro : VendorStore.readOrCreate v store with ⟨mem, store₂⟩
    have hname : mem.vendorName = v := by
      have h := readOrCreate_vendorName v store; rw [hro] at h; exact h
    have hrow : ∃ r ∈ store₂.vendorMemories, r.vendorName = v := by
      have h := readOrCreate_row v store; rw [hro] at h; exact h
    unfold VendorStore.updateSkuMapping
    rw [hro]
    refine ⟨_, get_put v store₂ _ ?_ hrow, rfl⟩
    split <;> simpa using hname
  · intro v c store m₀ h
    unfold VendorStore.updateDefaultCurrency VendorStore.readOrCreate
    rw [h]
    refine get_put v store _ ?_ ?_
    · simpa using List.find?_some h
    · exact ⟨m₀, List.mem_of_find?_eq_some h, by simpa using List.find?_some h⟩
  · intro v terms store m₀ h
    unfold VendorStore.updatePaymentTerms VendorStore.readOrCreate
    rw [h]
    refine get_put v store _ ?_ ?_
    · simpa using List.find?_some h
    · exact ⟨m₀, List.mem_of_find?_eq_some h, by simpa using List.find?_some h⟩
  · intro v store m₀ h
    unfold VendorStore.recordVendorUsage
    rw [h]
    unfold VendorStore.getVendorMemory at h ⊢
    exact find?_map_fun_update (fun r => { r with usageCount := r.usageCount + 1 })
      (fun r => rfl) v store.vendorMemories m₀ h

/-- Witness for C7 (amended): the stale-aggregate conjunct evaluated on
the concrete consistent vendor store. -/
theorem vendor_aggregate_amended_witness :
    VendorStore.getVendorMemory "Acme" consistentVendorStore = some consistentVendor ∧
      VendorStore.getVendorMemory "Acme"
          (VendorStore.updateDefaultCurrency "Acme" "USD" consistentVendorStore) =
        some { consistentVendor with defaultCurrency := some "USD", usageCount := consistentVendor.usageCount + 1 } :=
  ⟨by rfl, vendor_aggregate_amended.2.2.2.1 "Acme" "USD" consistentVendorStore
    consistentVendor (by rfl)⟩

/-- Decomposition of the service-date step: it touches only the
`serviceDate` field and appends only service-date corrections, written
exactly when auto-applied. -/
theorem applyServiceDateStep_parts (invoice : Invoice) (vm : VendorMemory) (ext : Extractors)
    (st : ApplyState) :
    ∃ sd d, applyServiceDateStep invoice vm ext st =
        ({ st.1 with serviceDate := sd }, st.2 ++ d) ∧
      ∀ c ∈ d, c.field = "serviceDate" ∧
        (c.autoApplied = true ↔ Apply.AUTO_APPLY_THRESHOLD ≤ c.confidence) ∧
        (c.autoApplied = true → sd = valToOptStr c.proposedValue) ∧
        (c.autoApplied = false → sd = st.1.serviceDate) := by
  unfold applyServiceDateStep
  dsimp only
  repeat' split
  all_goals try (refine ⟨st.1.serviceDate, [], ?_, by simp⟩; rw [List.append_nil]; done)
  · refine ⟨_, [_], rfl, ?_⟩
    intro c hc
    rw [List.mem_singleton] at hc
    subst hc
    exact ⟨rfl, by simp, fun _ => rfl, fun hf => by exfalso; simp_all; try linarith⟩
  · refine ⟨st.1.serviceDate, [_], rfl, ?_⟩
    intro c hc
    rw [List.mem_singleton] at hc
    subst hc
    exact ⟨rfl, by simp, fun ht => by exfalso; simp_all; try linarith, fun _ => rfl⟩

/-- Decomposition of the tax step: it touches only the gross and tax
totals and appends only the linked gross/tax corrections, written
exactly when auto-applied. -/
theorem applyTaxStep_parts (invoice : Invoice) (vm : VendorMemory) (ext : Extractors)
    (st : ApplyState) :
    ∃ g t d, applyTaxStep invoice vm ext st =
        ({ st.1 with grossTotal := g, taxTotal := t }, st.2 ++ d) ∧
      ∀ c ∈ d, (c.autoApplied = true ↔ Apply.AUTO_APPLY_THRESHOLD ≤ c.confidence) ∧
        ((c.field = "grossTotal" ∧
            (c.autoApplied = true → JsVal.n g = c.proposedValue) ∧
            (c.autoApplied = false → g = st.1.grossTotal)) ∨
          (c.field = "taxTotal" ∧
            (c.autoApplied = true → JsVal.n t = c.proposedValue) ∧
            (c.autoApplied = false → t = st.1.taxTotal))) := by
  unfold applyTaxStep
  dsimp only
  repeat' split
  all_goals try (refine ⟨st.1.grossTotal, st.1.taxTotal, [], ?_, by simp⟩; rw [List.append_nil]; done)
  · refine ⟨_, _, [_, _], rfl, ?_⟩
    intro c hc
    rw [List.mem_cons, List.mem_singleton] at hc
    rcases hc with hc | hc <;> subst hc
    · exact ⟨by simp, Or.inl ⟨rfl, fun _ => rfl, fun hf => by exfalso; simp_all; try linarith⟩⟩
    · exact ⟨by simp, Or.inr ⟨rfl, fun _ => rfl, fun hf => by exfalso; simp_all; try linarith⟩⟩
  · refine ⟨st.1.grossTotal, st.1.taxTotal, [_, _], rfl, ?_⟩
    intro c hc
    rw [List.mem_cons, List.mem_singleton] at hc
    rcases hc with hc | hc <;> subst hc
    · exact ⟨by simp, Or.inl ⟨rfl, fun ht => by exfalso; simp_all; try linarith, fun _ => rfl⟩⟩
    · exact ⟨by simp, Or.inr ⟨rfl, fun ht => by exfalso; simp_all; try linarith, fun _ => rfl⟩⟩

/-- Decomposition of the raw-text currency branch. -/
theorem currencyFromRawText_parts (invoice : Invoice) (ext : Extractors) (st : ApplyState) :
    ∃ cur d, currencyFromRawText invoice ext st = ({ st.1 with currency := cur }, st.2 ++ d) ∧
      (cur = st.1.currency ∨ cur ≠ "") ∧
      ∀ c ∈ d, c.field = "currency" ∧ c.autoApplied = false ∧
        (c.autoApplied = true ↔ Apply.AUTO_APPLY_THRESHOLD ≤ c.confidence) ∧
        (cur = st.1.currency ∨ valToOptStr c.proposedValue = some cur) := by
  unfold currencyFromRawText
  dsimp only
  repeat' split
  all_goals try (refine ⟨st.1.currency, [], ?_, Or.inl rfl, by simp⟩; rw [List.append_nil]; done)
  refine ⟨_, [_], rfl, Or.inr (by assumption), ?_⟩
  intro c hc
  rw [List.mem_singleton] at hc
  subst hc
  exact ⟨rfl, rfl, by norm_num [Apply.AUTO_APPLY_THRESHOLD], Or.inr rfl⟩

/-- Decomposition of the currency step: it touches only the currency
field (and only to a non-empty value) and appends only never-auto-applied
currency corrections. -/
theorem applyCurrencyStep_parts (invoice : Invoice) (vm : VendorMemory) (ext : Extractors)
    (st : ApplyState) :
    ∃ cur d, applyCurrencyStep invoice vm ext st = ({ st.1 with currency := cur }, st.2 ++ d) ∧
      (cur = st.1.currency ∨ cur ≠ "") ∧
      ∀ c ∈ d, c.field = "currency" ∧ c.autoApplied = false ∧
        (c.autoApplied = true ↔ Apply.AUTO_APPLY_THRESHOLD ≤ c.confidence) ∧
        (cur = st.1.currency ∨ valToOptStr c.proposedValue = some cur) := by
  unfold applyCurrencyStep
  split
  · exact ⟨st.1.currency, [], by rw [List.append_nil], Or.inl rfl, by simp⟩
  · split
    · split
      · refine ⟨st.1.currency, [_], rfl, Or.inl rfl, ?_⟩
        intro c hc
        rw [List.mem_singleton] at hc
        subst hc
        exact ⟨rfl, rfl, by norm_num [Apply.AUTO_APPLY_THRESHOLD], Or.inl rfl⟩
      · exact currencyFromRawText_parts invoice ext st
    · exact currencyFromRawText_parts invoice ext st

/-- Per-item specification of the SKU loop body. -/
theorem skuStepItem_spec (vm : VendorMemory) (i : Nat) (item₀ : NormalizedLineItem) :
    ∀ c ∈ (skuStepItem vm i item₀).2,
      c.field = "lineItems[" ++ toString i ++ "].sku" ∧
      (c.autoApplied = true ↔ Apply.AUTO_APPLY_THRESHOLD ≤ c.confidence) ∧
      (c.autoApplied = true → valToOptStr c.proposedValue = some (skuStepItem vm i item₀).1.sku) ∧
      (c.autoApplied = false → (skuStepItem vm i item₀).1.sku = item₀.sku) := by
  unfold skuStepItem
  dsimp only
  repeat' split
  all_goals intro c hc
  all_goals try exact absurd hc (List.not_mem_nil c)
  all_goals rw [List.mem_singleton] at hc
  all_goals subst hc
  all_goals refine ⟨rfl, by simp, ?_, ?_⟩
  all_goals intro hx
  all_goals first
    | rfl
    | (exfalso
       simp only [decide_eq_true_eq, decide_eq_false_iff_not] at hx
       first
         | exact hx (by assumption)
         | exact hx (of_decide_eq_true (by assumption))
         | exact absurd (decide_eq_true hx) (by assumption))

/-- Decomposition of the SKU step: it touches only the line items,
per index through `skuStepItem`, and appends only line-item SKU
corrections. -/
theorem applySkuStep_parts (vm : VendorMemory) (st : ApplyState) :
    ∃ items d, applySkuStep vm st = ({ st.1 with lineItems := items }, st.2 ++ d) ∧
      (∀ i, items.get? i = (st.1.lineItems.get? i).map fun item => (skuStepItem vm i item).1) ∧
      ∀ c ∈ d, ∃ i item₀, st.1.lineItems.get? i = some item₀ ∧
        c.field = "lineItems[" ++ toString i ++ "].sku" ∧
        (c.autoApplied = true ↔ Apply.AUTO_APPLY_THRESHOLD ≤ c.confidence) ∧
        (c.autoApplied = true → valToOptStr c.proposedValue = some (skuStepItem vm i item₀).1.sku) ∧
        (c.autoApplied = false → (skuStepItem vm i item₀).1.sku = item₀.sku) := by
  refine ⟨_, _, rfl, ?_, ?_⟩
  · intro i
    cases h : st.1.lineItems.get? i with
    | none =>
      simp [List.get?_map, List.enum_get?, h]
      exact List.get?_eq_none.mp h
    | some item =>
      simp [List.get?_map, List.enum_get?, h]
      exact ⟨item, by rw [← List.get?_eq_getElem?]; exact h, rfl⟩
  · intro c hc
    simp only [List.mem_flatten, List.mem_map] at hc
    obtain ⟨cs, ⟨p, ⟨a, ha, hfa⟩, hsnd⟩, hcs⟩ := hc
    obtain ⟨i, item₀⟩ := a
    rw [List.mk_mem_enum_iff_get?] at ha
    subst hsnd
    rw [← hfa] at hcs
    exact ⟨i, item₀, ha, skuStepItem_spec vm i item₀ c hcs⟩

/-- Decomposition of the payment-terms step: it touches only the
discount terms and appends no correction. -/
theorem applyPaymentTermsStep_parts (vm : VendorMemory) (st : ApplyState) :
    ∃ dt, applyPaymentTermsStep vm st = ({ st.1 with discountTerms := dt }, st.2) := by
  unfold applyPaymentTermsStep
  split
  · exact ⟨vm.paymentTerms, rfl⟩
  · exact ⟨st.1.discountTerms, by simp⟩

/-- Decomposition of the discount-extraction step: it touches only the
discount terms and appends only a never-auto-applied discount-terms
correction whose value is nevertheless written. -/
theorem applyDiscountStep_parts (invoice : Invoice) (ext : Extractors) (st : ApplyState) :
    ∃ dt d, applyDiscountStep invoice ext st = ({ st.1 with discountTerms := dt }, st.2 ++ d) ∧
      ∀ c ∈ d, c.field = "discountTerms" ∧ c.autoApplied = false ∧
        (c.autoApplied = true ↔ Apply.AUTO_APPLY_THRESHOLD ≤ c.confidence) ∧
        dt = valToOptStr c.proposedValue := by
  unfold applyDiscountStep
  dsimp only
  repeat' split
  all_goals try (refine ⟨st.1.discountTerms, [], ?_, by simp⟩; rw [List.append_nil]; done)
  refine ⟨_, [_], rfl, ?_⟩
  intro c hc
  rw [List.mem_singleton] at hc
  subst hc
  exact ⟨rfl, rfl, by norm_num [Apply.AUTO_APPLY_THRESHOLD], rfl⟩

/-- Decomposition of the PO step: it touches only the PO number and
appends only PO-number corrections, written exactly when
auto-applied. -/
theorem applyPoStep_parts (invoice : Invoice) (purchaseOrders : Option (List PurchaseOrder))
    (st : ApplyState) :
    ∃ po d, applyPoStep invoice purchaseOrders st = ({ st.1 with poNumber := po }, st.2 ++ d) ∧
      ∀ c ∈ d, c.field = "poNumber" ∧
        (c.autoApplied = true ↔ Apply.AUTO_APPLY_THRESHOLD ≤ c.confidence) ∧
        (c.autoApplied = true → po = valToOptStr c.proposedValue) ∧
        (c.autoApplied = false → po = st.1.poNumber) := by
  unfold applyPoStep
  dsimp only
  repeat' split
  all_goals try (refine ⟨st.1.poNumber, [], ?_, by simp⟩; rw [List.append_nil]; done)
  · refine ⟨_, [_], rfl, ?_⟩
    intro c hc
    rw [List.mem_singleton] at hc
    subst hc
    exact ⟨rfl, by simp, fun _ => rfl, fun hf => by exfalso; simp_all; try linarith⟩
  · refine ⟨st.1.poNumber, [_], rfl, ?_⟩
    intro c hc
    rw [List.mem_singleton] at hc
    subst hc
    exact ⟨rfl, by simp, fun ht => by exfalso; simp_all; try linarith, fun _ => rfl⟩

/-- Central decomposition of `applyMemories`: every proposed
correction's flag is the 0.85 threshold test and every correction is
write-consistent with the final normalized invoice; moreover the final
currency is either the initial (EUR-defaulted) one or a non-empty
extracted one. -/
theorem applyMemories_decomp (invoice : Invoice) (memories : RecalledMemories)
    (purchaseOrders : Option (List PurchaseOrder)) (ext : Extractors) :
    ((applyMemories invoice memories purchaseOrders ext).normalizedInvoice.currency =
        (initialNormalized invoice).currency ∨
      (applyMemories invoice memories purchaseOrders ext).normalizedInvoice.currency ≠ "") ∧
    ∀ c ∈ (applyMemories invoice memories purchaseOrders ext).proposedCorrections,
      (c.autoApplied = true ↔ Apply.AUTO_APPLY_THRESHOLD ≤ c.confidence) ∧
      writeConsistent invoice
        (applyMemories invoice memories purchaseOrders ext).normalizedInvoice c := by
  obtain ⟨vmem, cmem, rmem, dup⟩ := memories
  unfold applyMemories
  cases vmem with
  | none =>
    dsimp only
    obtain ⟨dt6, d6, e6, p6⟩ :=
      applyDiscountStep_parts invoice ext (initialNormalized invoice, [])
    rw [e6]
    obtain ⟨po, d7, e7, p7⟩ := applyPoStep_parts invoice purchaseOrders
      ({ initialNormalized invoice with discountTerms := dt6 }, [] ++ d6)
    rw [e7]
    refine ⟨Or.inl rfl, ?_⟩
    intro c hc
    simp only [List.mem_append, List.nil_append] at hc
    rcases hc with hc | hc
    · obtain ⟨hf, hfalse, hiff, hdt⟩ := p6 c hc
      exact ⟨hiff, Or.inr (Or.inr (Or.inr (Or.inr (Or.inr (Or.inl ⟨hf, hfalse, hdt⟩)))))⟩
    · obtain ⟨hf, hiff, hauto, hpend⟩ := p7 c hc
      exact ⟨hiff, Or.inr (Or.inr (Or.inr (Or.inr (Or.inr (Or.inr
        ⟨hf, fun ht => hauto ht, fun ht => hpend ht⟩)))))⟩
  | some vm =>
    dsimp only
    obtain ⟨sd, d1, e1, p1⟩ :=
      applyServiceDateStep_parts invoice vm ext (initialNormalized invoice, [])
    rw [e1]
    obtain ⟨g, t, d2, e2, p2⟩ := applyTaxStep_parts invoice vm ext
      ({ initialNormalized invoice with serviceDate := sd }, [] ++ d1)
    rw [e2]
    obtain ⟨cur, d3, e3, hcur3, p3⟩ := applyCurrencyStep_parts invoice vm ext
      ({ { initialNormalized invoice with serviceDate := sd } with
          grossTotal := g, taxTotal := t }, [] ++ d1 ++ d2)
    rw [e3]
    obtain ⟨items, d4, e4, hget4, p4⟩ := applySkuStep_parts vm
      ({ { { initialNormalized invoice with serviceDate := sd } with
          grossTotal := g, taxTotal := t } with currency := cur }, [] ++ d1 ++ d2 ++ d3)
    rw [e4]
    obtain ⟨dt5, e5⟩ := applyPaymentTermsStep_parts vm
      ({ { { { initialNormalized invoice with serviceDate := sd } with
          grossTotal := g, taxTotal := t } with currency := cur } with lineItems := items },
        [] ++ d1 ++ d2 ++ d3 ++ d4)
    rw [e5]
    obtain ⟨dt6, d6, e6, p6⟩ := applyDiscountStep_parts invoice ext
      ({ { { { { initialNormalized invoice with serviceDate := sd } with
          grossTotal := g, taxTotal := t } with currency := cur } with
          lineItems := items } with discountTerms := dt5 },
        [] ++ d1 ++ d2 ++ d3 ++ d4)
    rw [e6]
    obtain ⟨po, d7, e7, p7⟩ := applyPoStep_parts invoice purchaseOrders
      ({ { { { { { initialNormalized invoice with serviceDate := sd } with
          grossTotal := g, taxTotal := t } with currency := cur } with
          lineItems := items } with discountTerms := dt5 } with discountTerms := dt6 },
        ([] ++ d1 ++ d2 ++ d3 ++ d4) ++ d6)
    rw [e7]
    constructor
    · rcases hcur3 with h | h
      · exact Or.inl h
      · exact Or.inr h
    intro c hc
    simp only [List.mem_append, List.nil_append] at hc
    rcases hc with ((((hc | hc) | hc) | hc) | hc) | hc
    · obtain ⟨hf, hiff, hauto, hpend⟩ := p1 c hc
      exact ⟨hiff, Or.inl ⟨hf, fun ht => hauto ht, fun ht => hpend ht⟩⟩
    · obtain ⟨hiff, hor⟩ := p2 c hc
      rcases hor with ⟨hf, hauto, hpend⟩ | ⟨hf, hauto, hpend⟩
      · exact ⟨hiff, Or.inr (Or.inl ⟨hf, fun ht => hauto ht, fun ht => hpend ht⟩)⟩
      · exact ⟨hiff, Or.inr (Or.inr (Or.inl ⟨hf, fun ht => hauto ht, fun ht => hpend ht⟩))⟩
    · obtain ⟨hf, hfalse, hiff, hd⟩ := p3 c hc
      refine ⟨hiff, Or.inr (Or.inr (Or.inr (Or.inl ⟨hf, hfalse, ?_⟩)))⟩
      rcases hd with h | h
      · exact Or.inl h
      · exact Or.inr h
    · obtain ⟨i, item₀, hget, hf, hiff, hauto, hpend⟩ := p4 c hc
      have h := hget4 i
      rw [hget] at h
      simp only [Option.map_some'] at h
      exact ⟨hiff, Or.inr (Or.inr (Or.inr (Or.inr (Or.inl
        ⟨i, item₀, (skuStepItem vm i item₀).1, hf, hget, h, fun ht => hauto ht,
          fun ht => hpend ht⟩))))⟩
    · obtain ⟨hf, hfalse, hiff, hdt⟩ := p6 c hc
      exact ⟨hiff, Or.inr (Or.inr (Or.inr (Or.inr (Or.inr (Or.inl ⟨hf, hfalse, hdt⟩)))))⟩
    · obtain ⟨hf, hiff, hauto, hpend⟩ := p7 c hc
      exact ⟨hiff, Or.inr (Or.inr (Or.inr (Or.inr (Or.inr (Or.inr
        ⟨hf, fun ht => hauto ht, fun ht => hpend ht⟩)))))⟩

/-- Claim C3 (amended): every proposed correction is auto-applied iff
its confidence is at least 0.85; service-date, gross/tax-total,
line-item-SKU and PO-number corrections write their proposed value into
the normalized invoice exactly when auto-applied; currency and
discount-terms corrections are always pending yet may still write their
value (the raw-text-extracted currency and discount terms are written,
only the vendor-default currency proposal leaves the document
unchanged). -/
theorem apply_autoapply_amended (invoice : Invoice) (memories : RecalledMemories)
    (purchaseOrders : Option (List PurchaseOrder)) (ext : Extractors) :
    ∀ c ∈ (applyMemories invoice memories purchaseOrders ext).proposedCorrections,
      (c.autoApplied = true ↔ Apply.AUTO_APPLY_THRESHOLD ≤ c.confidence) ∧
      writeConsistent invoice
        (applyMemories invoice memories purchaseOrders ext).normalizedInvoice c :=
  (applyMemories_decomp invoice memories purchaseOrders ext).2

/-- Counterexample for C3 as stated: a currency correction recovered
from raw text and a discount-terms correction are both pending
(`autoApplied = false`, confidence < 0.85) and yet their proposed
values are written into the normalized invoice. -/
theorem apply_pending_write_counterexample :
    (applyMemories sampleInvoice applyMemoriesFixture none
        sampleExtractors).proposedCorrections =
      [pendingCurrencyCorrection, pendingDiscountCorrection] ∧
    pendingCurrencyCorrection.autoApplied = false ∧
    pendingDiscountCorrection.autoApplied = false ∧
    (applyMemories sampleInvoice applyMemoriesFixture none
      sampleExtractors).normalizedInvoice.currency = "USD" ∧
    pendingCurrencyCorrection.proposedValue = JsVal.s "USD" ∧
    (applyMemories sampleInvoice applyMemoriesFixture none
      sampleExtractors).normalizedInvoice.discountTerms = some "2% Skonto within 14 days" ∧
    pendingDiscountCorrection.proposedValue = JsVal.s "2% Skonto within 14 days" ∧
    (initialNormalized sampleInvoice).currency = "EUR" ∧
    (initialNormalized sampleInvoice).discountTerms = none :=
  ⟨rfl, rfl, rfl, rfl, rfl, rfl, rfl, rfl, rfl⟩

/-- Witness for C3 (amended): the theorem applied to the concrete
pending currency correction. -/
theorem apply_autoapply_amended_witness :
    pendingCurrencyCorrection ∈ (applyMemories sampleInvoice applyMemoriesFixture none
        sampleExtractors).proposedCorrections ∧
      ((pendingCurrencyCorrection.autoApplied = true ↔
          Apply.AUTO_APPLY_THRESHOLD ≤ pendingCurrencyCorrection.confidence) ∧
        writeConsistent sampleInvoice
          (applyMemories sampleInvoice applyMemoriesFixture none
            sampleExtractors).normalizedInvoice pendingCurrencyCorrection) := by
  have hmem : pendingCurrencyCorrection ∈ (applyMemories sampleInvoice applyMemoriesFixture
      none sampleExtractors).proposedCorrections := by
    rw [show (applyMemories sampleInvoice applyMemoriesFixture none
      sampleExtractors).proposedCorrections =
      [pendingCurrencyCorrection, pendingDiscountCorrection] from rfl]
    exact List.mem_cons_self _ _
  exact ⟨hmem, apply_autoapply_amended sampleInvoice applyMemoriesFixture none
    sampleExtractors pendingCurrencyCorrection hmem⟩

/-- Claim C10: the normalized invoice produced by Apply always has a
non-empty currency — a missing input currency is defaulted to `'EUR'`
in the initial normalized copy, before any correction logic runs — so
Decide's missing-critical-field escalation for currency can never fire
on a normalized invoice produced by Apply. -/
theorem apply_currency_never_missing (invoice : Invoice) (memories : RecalledMemories)
    (purchaseOrders : Option (List PurchaseOrder)) (ext : Extractors) :
    (invoice.fields.currency = none → (initialNormalized invoice).currency = "EUR") ∧
    (applyMemories invoice memories purchaseOrders ext).normalizedInvoice.currency ≠ "" ∧
    ∀ corrections, checkMissingFields
      (applyMemories invoice memories purchaseOrders ext).normalizedInvoice corrections =
        [] := by
  have hinit : (initialNormalized invoice).currency ≠ "" := by
    unfold initialNormalized currencyOrEUR
    cases invoice.fields.currency with
    | none => simp
    | some s => by_cases h : s = "" <;> simp [h]
  have hne : (applyMemories invoice memories purchaseOrders ext).normalizedInvoice.currency ≠
      "" := by
    rcases (applyMemories_decomp invoice memories purchaseOrders ext).1 with h | h
    · rw [h]; exact hinit
    · exact h
  refine ⟨fun h => ?_, hne, fun corrections => ?_⟩
  · unfold initialNormalized currencyOrEUR
    simp [h]
  · unfold checkMissingFields
    rw [if_neg]
    intro hcon
    exact hne hcon.1

/-- Witness for C10: the concrete currency-less document is normalized
with the `'EUR'` default and never triggers the missing-currency
escalation. -/
theorem apply_currency_never_missing_witness :
    sampleInvoice.fields.currency = none ∧
      (initialNormalized sampleInvoice).currency = "EUR" ∧
      (applyMemories sampleInvoice applyMemoriesFixture none
        sampleExtractors).normalizedInvoice.currency ≠ "" ∧
      checkMissingFields (applyMemories sampleInvoice applyMemoriesFixture none
        sampleExtractors).normalizedInvoice [] = [] :=
  ⟨rfl,
    (apply_currency_never_missing sampleInvoice applyMemoriesFixture none sampleExtractors).1
      rfl,
    (apply_currency_never_missing sampleInvoice applyMemoriesFixture none
      sampleExtractors).2.1,
    (apply_currency_never_missing sampleInvoice applyMemoriesFixture none
      sampleExtractors).2.2 []⟩

/-- Helper: the head of a list, when present, is a member. -/
theorem head?_mem {α : Type} {l : List α} {a : α} (h : l.head? = some a) : a ∈ l := by
  cases l with
  | nil => simp at h
  | cons x xs =>
    simp at h
    subst h
    exact List.mem_cons_self _ _

/-- Helper: a list with a member has a head. -/
theorem head?_isSome_of_mem {α : Type} {l : List α} {a : α} (h : a ∈ l) :
    l.head?.isSome = true := by
  cases l with
  | nil => exact absurd h (List.not_mem_nil a)
  | cons x xs => rfl

/-- Helper: membership is invariant under the descending-confidence
insertion of the correction-memory read. -/
theorem mem_insertByConfDesc (a c : CorrectionMemory) (l : List CorrectionMemory) :
    a ∈ CorrectionStore.insertByConfDesc c l ↔ a = c ∨ a ∈ l := by
  induction l with
  | nil => simp [CorrectionStore.insertByConfDesc]
  | cons b bs ih =>
    unfold CorrectionStore.insertByConfDesc
    split
    · simp
    · rw [List.mem_cons, ih, List.mem_cons]
      tauto

/-- Helper: sorting by descending confidence preserves membership. -/
theorem mem_sortByConfDesc (a : CorrectionMemory) (l : List CorrectionMemory) :
    a ∈ CorrectionStore.sortByConfDesc l ↔ a ∈ l := by
  induction l with
  | nil => simp [CorrectionStore.sortByConfDesc]
  | cons b bs ih =>
    unfold CorrectionStore.sortByConfDesc
    rw [mem_insertByConfDesc, ih, List.mem_cons]

/-- Helper: a row returned by `findMatchingCorrection` is a stored row
of the requested vendor with the requested field name. -/
theorem findMatchingCorrection_spec (v f : String) (pat : Option String) (store : Store)
    (ex : CorrectionMemory)
    (h : CorrectionStore.findMatchingCorrection v f pat store = some ex) :
    ex ∈ store.correctionMemories ∧ ex.vendorName = v ∧ ex.fieldName = f := by
  unfold CorrectionStore.findMatchingCorrection CorrectionStore.getCorrectionMemories at h
  have hmem := head?_mem h
  rw [List.mem_filter] at hmem
  obtain ⟨hmem, hp⟩ := hmem
  rw [mem_sortByConfDesc, List.mem_filter] at hmem
  obtain ⟨hmem, hv⟩ := hmem
  rw [Bool.and_eq_true] at hp
  exact ⟨hmem, of_decide_eq_true hv, of_decide_eq_true hp.1⟩

/-- Helper: a stored row of the vendor with the requested field name
makes the pattern-less `findMatchingCorrection` succeed. -/
theorem findMatchingCorrection_isSome (v f : String) (store : Store) (r : CorrectionMemory)
    (hmem : r ∈ store.correctionMemories) (hv : r.vendorName = v) (hf : r.fieldName = f) :
    (CorrectionStore.findMatchingCorrection v f none store).isSome = true := by
  unfold CorrectionStore.findMatchingCorrection CorrectionStore.getCorrectionMemories
  apply head?_isSome_of_mem (a := r)
  rw [List.mem_filter]
  refine ⟨?_, ?_⟩
  · rw [mem_sortByConfDesc, List.mem_filter]
    exact ⟨hmem, decide_eq_true hv⟩
  · simp [hf]

/-- Helper: `recordCorrection` leaves a stored row of the vendor with
the recorded field name. -/
theorem recordCorrection_mem (v f pat : String) (ct : CorrectionType) (val : JsVal)
    (store : Store) :
    ∃ r ∈ (CorrectionStore.recordCorrection v f pat ct val store).2.correctionMemories,
      r.vendorName = v ∧ r.fieldName = f := by
  unfold CorrectionStore.recordCorrection
  cases h : CorrectionStore.findMatchingCorrection v f (some pat) store with
  | none =>
    refine ⟨CorrectionStore.createdCorrectionRec store.nextId v f pat ct val, ?_, rfl, rfl⟩
    simp
  | some ex =>
    obtain ⟨hmem, hv, hf⟩ := findMatchingCorrection_spec v f (some pat) store ex h
    refine ⟨CorrectionStore.reinforceRec ex, ?_, hv, hf⟩
    unfold CorrectionStore.reinforceCorrection
    have hx := List.mem_map_of_mem
      (fun r => if r.id = ex.id then CorrectionStore.reinforceRec r else r) hmem
    simpa using hx

/-- Helper: `recordCorrection` does not touch the vendor table. -/
theorem recordCorrection_vendorMemories (v f pat : String) (ct : CorrectionType) (val : JsVal)
    (store : Store) :
    (CorrectionStore.recordCorrection v f pat ct val store).2.vendorMemories =
      store.vendorMemories := by
  unfold CorrectionStore.recordCorrection
  cases CorrectionStore.findMatchingCorrection v f (some pat) store <;> rfl

/-- Helper: `reinforceCorrection` does not touch the vendor table. -/
theorem reinforceCorrection_vendorMemories (i : Nat) (store : Store) :
    (CorrectionStore.reinforceCorrection i store).vendorMemories = store.vendorMemories := rfl

/-- Helper: `weakenCorrection` does not touch the vendor table. -/
theorem weakenCorrection_vendorMemories (i : Nat) (store : Store) :
    (CorrectionStore.weakenCorrection i store).vendorMemories = store.vendorMemories := rfl

/-- Helper: the vendor lookup only reads the vendor table. -/
theorem getVendorMemory_congr (v : String) {s t : Store}
    (h : s.vendorMemories = t.vendorMemories) :
    VendorStore.getVendorMemory v s = VendorStore.getVendorMemory v t := by
  unfold VendorStore.getVendorMemory
  rw [h]

/-- Helper: `updateDefaultCurrency` leaves a retrievable vendor row
carrying the new default currency. -/
theorem updateDefaultCurrency_get (v cur : String) (store : Store) :
    ∃ r, VendorStore.getVendorMemory v (VendorStore.updateDefaultCurrency v cur store) =
        some r ∧ r.defaultCurrency = some cur := by
  rcases hro : VendorStore.readOrCreate v store with ⟨mem, store₂⟩
  have hname : mem.vendorName = v := by
    have h := readOrCreate_vendorName v store; rw [hro] at h; exact h
  have hrow : ∃ r ∈ store₂.vendorMemories, r.vendorName = v := by
    have h := readOrCreate_row v store; rw [hro] at h; exact h
  unfold VendorStore.updateDefaultCurrency
  rw [hro]
  exact ⟨_, get_put v store₂ _ hname hrow, rfl⟩

/-- Helper: full reduction of `processCorrection` on a currency field
correction — only the currency rule fires, and the trailing generic
pass finds the set_currency row the rule just recorded and reinforces
it on approval, weakens it on rejection. -/
theorem processCorrection_currency (invoice : Invoice) (v : String) (c : FieldCorrection)
    (dec : Resolution) (store : Store) (hfield : c.field = "currency") :
    ∃ ex,
      CorrectionStore.findMatchingCorrection v "currency" none
        (CorrectionStore.recordCorrection v "currency" "missing_currency"
          CorrectionType.set_currency c.toVal
          (VendorStore.updateDefaultCurrency v c.toVal.asString store)).2 = some ex ∧
      ex.vendorName = v ∧ ex.fieldName = "currency" ∧
      (dec = Resolution.approved →
        processCorrection invoice v c dec store =
          (CorrectionStore.reinforceCorrection ex.id
            (CorrectionStore.recordCorrection v "currency" "missing_currency"
              CorrectionType.set_currency c.toVal
              (VendorStore.updateDefaultCurrency v c.toVal.asString store)).2,
           [{ mtype := "vendor"
              action := "reinforce"
              details := "Learned default currency: " ++ c.toVal.asString
              memoryId := none },
            { mtype := "correction"
              action := "reinforce"
              details := "Reinforced correction pattern for " ++ "currency" ++
                " (success count increased)"
              memoryId := some ex.id }],
           ["Learned: " ++ v ++ " default currency = " ++ c.toVal.asString])) ∧
      (dec = Resolution.rejected →
        processCorrection invoice v c dec store =
          (CorrectionStore.weakenCorrection ex.id
            (CorrectionStore.recordCorrection v "currency" "missing_currency"
              CorrectionType.set_currency c.toVal
              (VendorStore.updateDefaultCurrency v c.toVal.asString store)).2,
           [{ mtype := "vendor"
              action := "reinforce"
              details := "Learned default currency: " ++ c.toVal.asString
              memoryId := none },
            { mtype := "correction"
              action := "weaken"
              details := "Weakened correction pattern for " ++ "currency" ++
                " (failure count increased)"
              memoryId := some ex.id }],
           ["Learned: " ++ v ++ " default currency = " ++ c.toVal.asString])) := by
  have h1 : serviceDateRule c = false := by
    unfold serviceDateRule
    rw [hfield]
    rfl
  have h2 : taxRule c = false := by
    unfold taxRule
    rw [hfield]
    rfl
  have h5 : skuCorrectionTarget invoice c.field = none := by
    rw [hfield]
    rfl
  obtain ⟨r₀, hr₀, hrv, hrf⟩ :=
    recordCorrection_mem v "currency" "missing_currency" CorrectionType.set_currency c.toVal
      (VendorStore.updateDefaultCurrency v c.toVal.asString store)
  obtain ⟨ex, hex⟩ := Option.isSome_iff_exists.mp
    (findMatchingCorrection_isSome v "currency"
      (CorrectionStore.recordCorrection v "currency" "missing_currency"
        CorrectionType.set_currency c.toVal
        (VendorStore.updateDefaultCurrency v c.toVal.asString store)).2 r₀ hr₀ hrv hrf)
  obtain ⟨hexmem, hexv, hexf⟩ := findMatchingCorrection_spec v "currency" none _ ex hex
  have h5' : skuCorrectionTarget invoice "currency" = none := rfl
  refine ⟨ex, hex, hexv, hexf, ?_, ?_⟩ <;> intro hdec <;> subst hdec <;>
    (unfold processCorrection
     simp only [h1, h2, hfield, h5', Bool.false_eq_true, if_false]
     simp [hex])

/-- Counterexample for C5 as stated: on a rejected batch the trailing
generic pass of `processCorrection` weakens the set_currency correction
memory that the currency rule just created (failure count 1, weaken
update emitted); the same batch approved reinforces it instead. -/
theorem currency_weaken_counterexample :
    ((processCorrection sampleInvoice "Acme" currencyCorrection Resolution.rejected
        emptyStore).1.correctionMemories.map fun r =>
          (r.fieldName, r.correctionType, r.successCount, r.failureCount)) =
      [("currency", CorrectionType.set_currency, 1, 1)] ∧
    ((processCorrection sampleInvoice "Acme" currencyCorrection Resolution.rejected
        emptyStore).2.1.map fun u => (u.mtype, u.action)) =
      [("vendor", "reinforce"), ("correction", "weaken")] ∧
    ((processCorrection sampleInvoice "Acme" currencyCorrection Resolution.approved
        emptyStore).1.correctionMemories.map fun r =>
          (r.fieldName, r.correctionType, r.successCount, r.failureCount)) =
      [("currency", CorrectionType.set_currency, 2, 0)] :=
  ⟨rfl, rfl, rfl⟩

/-- Claim C5 (amended): processing a currency field correction sets the
vendor's default currency and records a set_currency correction
memory; the currency rule itself always emits a reinforce update, but
the trailing generic pass then reinforces the matching currency
correction memory on approved batches and weakens it on rejected
batches — currency corrections are subject to reject-driven
weakening. -/
theorem currency_learning_amended (invoice : Invoice) (v : String) (c : FieldCorrection)
    (dec : Resolution) (store : Store) (hfield : c.field = "currency") :
    (∃ r, VendorStore.getVendorMemory v (processCorrection invoice v c dec store).1 =
        some r ∧ r.defaultCurrency = some c.toVal.asString) ∧
    (∃ ex : CorrectionMemory, ex.fieldName = "currency" ∧
      ((processCorrection invoice v c dec store).2.1.map fun u => (u.mtype, u.action)) =
        [("vendor", "reinforce"),
         ("correction", if dec = Resolution.approved then "reinforce" else "weaken")] ∧
      (dec = Resolution.rejected →
        (processCorrection invoice v c dec store).1 =
          CorrectionStore.weakenCorrection ex.id
            (CorrectionStore.recordCorrection v "currency" "missing_currency"
              CorrectionType.set_currency c.toVal
              (VendorStore.updateDefaultCurrency v c.toVal.asString store)).2)) := by
  obtain ⟨ex, hex, hexv, hexf, happ, hrej⟩ :=
    processCorrection_currency invoice v c dec store hfield
  obtain ⟨r, hr, hrd⟩ := updateDefaultCurrency_get v c.toVal.asString store
  have hvm : ∀ i : Nat,
      (CorrectionStore.weakenCorrection i
        (CorrectionStore.recordCorrection v "currency" "missing_currency"
          CorrectionType.set_currency c.toVal
          (VendorStore.updateDefaultCurrency v c.toVal.asString store)).2).vendorMemories =
        (VendorStore.updateDefaultCurrency v c.toVal.asString store).vendorMemories := by
    intro i
    rw [weakenCorrection_vendorMemories, recordCorrection_vendorMemories]
  have hvm' : ∀ i : Nat,
      (CorrectionStore.reinforceCorrection i
        (CorrectionStore.recordCorrection v "currency" "missing_currency"
          CorrectionType.set_currency c.toVal
          (VendorStore.updateDefaultCurrency v c.toVal.asString store)).2).vendorMemories =
        (VendorStore.updateDefaultCurrency v c.toVal.asString store).vendorMemories := by
    intro i
    rw [reinforceCorrection_vendorMemories, recordCorrection_vendorMemories]
  cases dec with
  | approved =>
    rw [happ rfl]
    refine ⟨⟨r, ?_, hrd⟩, ex, hexf, by simp, fun h => by cases h⟩
    exact (getVendorMemory_congr v (hvm' ex.id)).trans hr
  | rejected =>
    rw [hrej rfl]
    refine ⟨⟨r, ?_, hrd⟩, ex, hexf, by simp, fun _ => rfl⟩
    exact (getVendorMemory_congr v (hvm ex.id)).trans hr

/-- Witness for C5 (amended): the theorem applied to the concrete
rejected currency correction on the empty store. -/
theorem currency_learning_amended_witness :
    currencyCorrection.field = "currency" ∧
    (∃ r, VendorStore.getVendorMemory "Acme"
        (processCorrection sampleInvoice "Acme" currencyCorrection Resolution.rejected
          emptyStore).1 = some r ∧
      r.defaultCurrency = some currencyCorrection.toVal.asString) :=
  ⟨rfl,
    (currency_learning_amended sampleInvoice "Acme" currencyCorrection Resolution.rejected
      emptyStore rfl).1⟩

/-- Helper: a correction on which none of the six learn rules fires,
and for which the store holds no matching correction pattern, leaves
the store untouched and contributes no memory update and no audit
detail. -/
theorem processCorrection_skipped (invoice : Invoice) (v : String) (c : FieldCorrection)
    (dec : Resolution) (store : Store) (hskip : correctionSkipped invoice c)
    (hfind : CorrectionStore.findMatchingCorrection v c.field none store = none) :
    processCorrection invoice v c dec store = (store, [], []) := by
  obtain ⟨h1, h2, h3, h4, h5, h6⟩ := hskip
  unfold processCorrection
  simp only [h1, h2, h5, hfind, Bool.false_eq_true, if_false]
  simp [h3, h4, h6, hfind]

/-- Helper: the resolution-recording fold of `learn` appends one
resolution row per correction and touches nothing else. -/
theorem resolutionFold_spec (iid v : String) (dec : Resolution)
    (cs : List FieldCorrection) (store : Store) :
    cs.foldl (fun s c => recordResolution iid v c.field c.fromVal c.toVal dec
        (some c.reason) s) store =
      { store with
        resolutionMemories :=
          store.resolutionMemories ++
            cs.map fun c => mkResolutionRec iid v c.field c.fromVal c.toVal dec
              (some c.reason) } := by
  induction cs generalizing store with
  | nil => simp
  | cons c cs ih =>
    rw [List.foldl_cons, ih]
    unfold recordResolution
    simp

/-- Helper: a skipped correction at the head of the remaining batch
does not change the Learn accumulator. -/
theorem processAll_cons_skip (invoice : Invoice) (v : String) (dec : Resolution)
    (acc : LearnAcc) (bad : FieldCorrection) (post : List FieldCorrection)
    (hskip : correctionSkipped invoice bad)
    (hfind : CorrectionStore.findMatchingCorrection v bad.field none acc.1 = none) :
    processAll invoice v dec acc (bad :: post) = processAll invoice v dec acc post := by
  unfold processAll
  rw [List.foldl_cons]
  congr 1
  rcases acc with ⟨s, u, d⟩
  dsimp only at hfind ⊢
  rw [processCorrection_skipped invoice v bad dec s hskip hfind]
  simp

/-- Helper: removing a correction that is skipped at its processing
point from the middle of a batch does not change the Learn
accumulator. -/
theorem processAll_skip (invoice : Invoice) (v : String) (dec : Resolution)
    (acc : LearnAcc) (bad : FieldCorrection) (pre post : List FieldCorrection)
    (hskip : correctionSkipped invoice bad)
    (hfind : CorrectionStore.findMatchingCorrection v bad.field none
      (processAll invoice v dec acc pre).1 = none) :
    processAll invoice v dec acc (pre ++ bad :: post) =
      processAll invoice v dec acc (pre ++ post) := by
  have h := processAll_cons_skip invoice v dec (processAll invoice v dec acc pre) bad post
    hskip hfind
  unfold processAll at h ⊢
  rw [List.foldl_append, List.foldl_append]
  exact h

/-- Counterexample for C9 as stated: the malformed SKU correction
(line item 5 of a document with no line items) is skipped and the rest
of the batch is processed, but nothing about it reaches the Learn
result — memory updates and audit details are identical with and
without it. -/
theorem malformed_not_surfaced_counterexample :
    (learn sampleInvoice batchWithBad emptyStore).2 =
      (learn sampleInvoice batchWithoutBad emptyStore).2 ∧
    processCorrection sampleInvoice "Acme" badSkuCorrection Resolution.approved
        (ensureVendorStep "Acme" emptyStore).1 =
      ((ensureVendorStep "Acme" emptyStore).1, [], []) :=
  ⟨rfl, rfl⟩

/-- Claim C9 (amended): a malformed correction (no learn rule fires on
it — unknown field name, unparsable or out-of-range line-item index —
and no stored pattern matches it) does not abort the batch: the Learn
result (memory updates and audit note) is exactly the one of the batch
without it, and the resulting store differs only by the malformed
correction's own resolution row; in particular the skipped correction
is not surfaced in the audit note. -/
theorem malformed_correction_amended (invoice : Invoice) (hc : HumanCorrection)
    (store : Store) (bad : FieldCorrection) (pre post : List FieldCorrection)
    (hskip : correctionSkipped invoice bad)
    (hfind : CorrectionStore.findMatchingCorrection invoice.vendor bad.field none
      (processAll invoice invoice.vendor hc.finalDecision
        (ensureVendorStep invoice.vendor store) pre).1 = none) :
    (learn invoice { hc with corrections := pre ++ bad :: post } store).2 =
      (learn invoice { hc with corrections := pre ++ post } store).2 ∧
    ∃ rpre rpost,
      (learn invoice { hc with corrections := pre ++ bad :: post } store).1 =
        { (learn invoice { hc with corrections := pre ++ post } store).1 with
          resolutionMemories :=
            rpre ++
              mkResolutionRec invoice.invoiceId invoice.vendor bad.field bad.fromVal
                bad.toVal hc.finalDecision (some bad.reason) :: rpost } ∧
      (learn invoice { hc with corrections := pre ++ post } store).1.resolutionMemories =
        rpre ++ rpost := by
  unfold learn
  dsimp only
  rw [processAll_skip invoice invoice.vendor hc.finalDecision
    (ensureVendorStep invoice.vendor store) bad pre post hskip hfind]
  rcases hacc : processAll invoice invoice.vendor hc.finalDecision
    (ensureVendorStep invoice.vendor store) (pre ++ post) with ⟨s₁, u₁, d₁⟩
  dsimp only
  rw [resolutionFold_spec, resolutionFold_spec]
  unfold recordProcessedInvoice
  refine ⟨rfl, s₁.resolutionMemories ++ (pre.map fun c =>
    mkResolutionRec invoice.invoiceId invoice.vendor c.field c.fromVal c.toVal
      hc.finalDecision (some c.reason)), post.map fun c =>
    mkResolutionRec invoice.invoiceId invoice.vendor c.field c.fromVal c.toVal
      hc.finalDecision (some c.reason), ?_, ?_⟩
  · simp [List.append_assoc]
  · simp [List.append_assoc]

/-- Witness for C9 (amended): the theorem applied to the concrete
batch holding the malformed SKU correction and a currency
correction. -/
theorem malformed_correction_amended_witness :
    correctionSkipped sampleInvoice badSkuCorrection ∧
    CorrectionStore.findMatchingCorrection sampleInvoice.vendor badSkuCorrection.field none
      (processAll sampleInvoice sampleInvoice.vendor batchWithBad.finalDecision
        (ensureVendorStep sampleInvoice.vendor emptyStore) []).1 = none ∧
    (learn sampleInvoice
        { batchWithBad with corrections := [] ++ badSkuCorrection :: [currencyCorrection] }
        emptyStore).2 =
      (learn sampleInvoice { batchWithBad with corrections := [] ++ [currencyCorrection] }
        emptyStore).2 :=
  ⟨by decide, rfl,
    (malformed_correction_amended sampleInvoice batchWithBad emptyStore badSkuCorrection
      [] [currencyCorrection] (by decide) rfl).1⟩

end InvoiceMemory
